import Mathlib

set_option maxHeartbeats 1000000

/-!
Shallow embedding of the combinational-logic engine of the logic_gate
repository: the graph types (src/types.ts) and the three core operations of
src/utils/circuitLogic.ts — simulateCircuit (the propagation evaluator),
generateTruthTable, and generateExpression — together with their helpers
getNodeInputs and evaluateGate.  JavaScript arrays become Lean lists,
Record objects become insertion-ordered association lists, the stable
Array.prototype.sort becomes a stable insertion sort, and the
while-loop of simulateCircuit becomes fuel recursion with the same
50-pass cap.
-/

/-- Gate kinds, translated from the TypeScript enum GateType in src/types.ts. -/
inductive GateType where
  | AND
  | OR
  | NOT
  | NAND
  | NOR
  | XOR
  | INPUT
  | OUTPUT
deriving DecidableEq

/-- A circuit node, translated from the CircuitNode interface in src/types.ts.
Coordinates are modelled as integers; the engine never computes with them. -/
structure CircuitNode where
  id : String
  type : GateType
  x : Int
  y : Int
  label : String
  value : Bool
deriving DecidableEq

/-- A directed wire, translated from the Wire interface in src/types.ts. -/
structure Wire where
  id : String
  sourceNodeId : String
  sourcePinIndex : Nat
  targetNodeId : String
  targetPinIndex : Nat
deriving DecidableEq

/-- One truth-table row, translated from the TruthTableRow interface in
src/types.ts.  The JavaScript Record objects are modelled as
insertion-ordered association lists. -/
structure TruthTableRow where
  inputs : List (String × Bool)
  outputs : List (String × Bool)
deriving DecidableEq

/-- Stable insertion of one element into a list, keeping it before the first
element that does not compare at-or-before it. -/
def insertBy (le : α → α → Bool) (a : α) : List α → List α
  | [] => [a]
  | b :: l => if le a b then a :: b :: l else b :: insertBy le a l

/-- Stable insertion sort with a boolean comparator.  This models
JavaScript Array.prototype.sort, which the ECMAScript specification requires
to be stable; a stable sort's output is uniquely determined by the comparator
together with stability, so the choice of algorithm is immaterial. -/
def sortBy (le : α → α → Bool) : List α → List α
  | [] => []
  | a :: l => insertBy le a (sortBy le l)

/-- Lexicographic code-point comparison of character lists. -/
def strLeb : List Char → List Char → Bool
  | [], _ => true
  | _ :: _, [] => false
  | a :: as, b :: bs => if a < b then true else if b < a then false else strLeb as bs

/-- Lexicographic code-point order on strings; models the ascending
label.localeCompare comparator used by the source on its plain ASCII labels. -/
def strLe (a b : String) : Bool := strLeb a.data b.data

/-- The wires driving a node, sorted by target pin index: the shared
filter-and-sort sub-expression of getNodeInputs (src/utils/circuitLogic.ts,
lines 6-9) and buildExpr (line 134). -/
def targetWires (wires : List Wire) (nodeId : String) : List Wire :=
  sortBy (fun a b => decide (a.targetPinIndex ≤ b.targetPinIndex))
    (wires.filter (fun w => w.targetNodeId == nodeId))

/-- Translation of getNodeInputs (src/utils/circuitLogic.ts, lines 4-21):
collect the wires targeting the node, sort them by target pin index, and fill
a two-slot optional-value vector from each wire's resolved source node. -/
def getNodeInputs (nodeId : String) (wires : List Wire) (allNodes : List CircuitNode) :
    List (Option Bool) :=
  (targetWires wires nodeId).foldl (fun inputs w =>
    match allNodes.find? (fun n => n.id == w.sourceNodeId) with
    | some sourceNode =>
      if w.targetPinIndex < 2 then inputs.set w.targetPinIndex (some sourceNode.value)
      else inputs
    | none => inputs) [none, none]

/-- Translation of evaluateGate (src/utils/circuitLogic.ts, lines 24-39).
An absent input slot compares unequal to some true, so it acts as false. -/
def evaluateGate (type : GateType) (inputs : List (Option Bool)) : Bool :=
  let a := inputs.getD 0 none == some true
  let b := inputs.getD 1 none == some true
  match type with
  | GateType.AND => a && b
  | GateType.OR => a || b
  | GateType.NOT => !a
  | GateType.NAND => !(a && b)
  | GateType.NOR => !(a || b)
  | GateType.XOR => (a && !b) || (!a && b)
  | GateType.INPUT => a
  | GateType.OUTPUT => a

/-- The per-node update performed inside one pass of simulateCircuit
(src/utils/circuitLogic.ts, lines 56-67): INPUT nodes are returned untouched,
every other node gets its gate function applied to its resolved inputs. -/
def stepNode (wires : List Wire) (allNodes : List CircuitNode) (node : CircuitNode) :
    CircuitNode :=
  if node.type = GateType.INPUT then node
  else { node with value := evaluateGate node.type (getNodeInputs node.id wires allNodes) }

/-- One full propagation pass: every node recomputed against the previous
snapshot (the body of the while loop of simulateCircuit). -/
def simulatePass (nodes : List CircuitNode) (wires : List Wire) : List CircuitNode :=
  nodes.map (stepNode wires nodes)

/-- Fuel-bounded iteration of simulatePass.  The loop of simulateCircuit runs
while the previous pass changed some value, so it stops as soon as a pass
returns the same snapshot, and the fuel models the MAX_ITERATIONS cap. -/
def simulateAux (wires : List Wire) : Nat → List CircuitNode → List CircuitNode
  | 0, nodes => nodes
  | fuel + 1, nodes =>
    let next := simulatePass nodes wires
    if next = nodes then next else simulateAux wires fuel next

/-- Translation of simulateCircuit (src/utils/circuitLogic.ts, lines 44-73):
multi-pass propagation with change detection, capped at 50 passes. -/
def simulateCircuit (nodes : List CircuitNode) (wires : List Wire) : List CircuitNode :=
  simulateAux wires 50 nodes

/-- Iterated propagation passes, used to state how many passes the evaluator
needs: simulateIter wires k nodes is the snapshot after exactly k passes. -/
def simulateIter (wires : List Wire) : Nat → List CircuitNode → List CircuitNode
  | 0, nodes => nodes
  | k + 1, nodes => simulatePass (simulateIter wires k nodes) wires

/-- Assignment to a JavaScript Record field: an existing key keeps its position
and gets the new value, a fresh key is appended. -/
def recordSet (r : List (String × Bool)) (k : String) (v : Bool) : List (String × Bool) :=
  if r.any (fun p => p.1 == k) then r.map (fun p => if p.1 == k then (k, v) else p)
  else r ++ [(k, v)]

/-- Reading a JavaScript Record field. -/
def recordGet (r : List (String × Bool)) (k : String) : Option Bool :=
  (r.find? (fun p => p.1 == k)).map (fun p => p.2)

/-- The INPUT labels sorted ascending, i.e. the sorted node lists computed at
the top of generateTruthTable (src/utils/circuitLogic.ts, lines 77-78). -/
def sortByLabel (l : List CircuitNode) : List CircuitNode :=
  sortBy (fun a b => strLe a.label b.label) l

/-- ECMAScript ToInt32: a nonnegative number reduced mod 2^32 and read as a
signed 32-bit integer.  The shift operators of the source act on this type. -/
def toInt32 (n : Nat) : Int :=
  if n % 2 ^ 32 < 2 ^ 31 then ((n % 2 ^ 32 : Nat) : Int)
  else ((n % 2 ^ 32 : Nat) : Int) - 2 ^ 32

/-- The row count `1 << inputs.length` of generateTruthTable (line 82): a
signed 32-bit left shift, whose shift count is taken mod 32 and whose result
is negative when the effective count is 31. -/
def jsShlOne (n : Nat) : Int := toInt32 (2 ^ (n % 32))

/-- The bit extraction `i >> k` of generateTruthTable (lines 91 and 104) for
a loop index i, which is always a nonnegative int32 here because the row
count is at most 2^30: JavaScript takes the shift count mod 32. -/
def jsShr (i k : Nat) : Nat := i >>> (k % 32)

/-- Step 1 of each truth-table row (src/utils/circuitLogic.ts, lines 87-95):
drive every INPUT node from the bits of the row index, leaving all other
nodes exactly as they are in the caller's snapshot.  The fallback branch
mirrors findIndex returning -1, which shifts by the full input count. -/
def setInputValues (nodes : List CircuitNode) (inputs : List CircuitNode) (i : Nat) :
    List CircuitNode :=
  nodes.map (fun node =>
    if node.type = GateType.INPUT then
      match inputs.findIdx? (fun inp => inp.id == node.id) with
      | some inputIndex =>
        { node with value := ((jsShr i (inputs.length - 1 - inputIndex)) &&& 1) == 1 }
      | none => { node with value := ((jsShr i inputs.length) &&& 1) == 1 }
    else node)

/-- Step 3a of each truth-table row (src/utils/circuitLogic.ts, lines 101-105):
record, for each sorted input in order, its label mapped to the bit of the row
index that drove it. -/
def rowInputsFor (inputs : List CircuitNode) (i : Nat) : List (String × Bool) :=
  inputs.enum.foldl
    (fun r p => recordSet r p.2.label (((jsShr i (inputs.length - 1 - p.1)) &&& 1) == 1)) []

/-- Step 3b of each truth-table row (src/utils/circuitLogic.ts, lines 107-111):
record each sorted output's label mapped to its settled value, or false when
its id has no match in the settled snapshot. -/
def rowOutputsFor (nodes : List CircuitNode) (wires : List Wire)
    (inputs outputs : List CircuitNode) (i : Nat) : List (String × Bool) :=
  let tempNodes := simulateCircuit (setInputValues nodes inputs i) wires
  outputs.foldl
    (fun r out => recordSet r out.label
      (match tempNodes.find? (fun n => n.id == out.id) with
       | some computedNode => computedNode.value
       | none => false)) []

/-- Translation of generateTruthTable (src/utils/circuitLogic.ts, lines 76-117). -/
def generateTruthTable (nodes : List CircuitNode) (wires : List Wire) : List TruthTableRow :=
  let inputs := sortByLabel (nodes.filter (fun n => decide (n.type = GateType.INPUT)))
  let outputs := sortByLabel (nodes.filter (fun n => decide (n.type = GateType.OUTPUT)))
  if inputs.length = 0 then []
  else
    (List.range (jsShlOne inputs.length).toNat).map (fun i =>
      { inputs := rowInputsFor inputs i
        outputs := rowOutputsFor nodes wires inputs outputs i })

/-- JavaScript's s or-else d for strings: the empty string is falsy. -/
def orDefault (s d : String) : String := if s = "" then d else s

/-- Fuel-bounded translation of the recursive buildExpr closure inside
generateExpression (src/utils/circuitLogic.ts, lines 124-152).  The visited
set is path-scoped: each recursive call receives its own extended copy.
The fuel argument only exists to make the recursion structural; it is proved
below that any fuel larger than the number of distinct node ids gives the
same result, which is how the source's recursion terminates. -/
def buildExprFuel (nodes : List CircuitNode) (wires : List Wire) :
    Nat → String → List String → String
  | 0, _, _ => "?"
  | fuel + 1, nodeId, visited =>
    if visited.contains nodeId then "[LOOP]"
    else
      match nodes.find? (fun n => n.id == nodeId) with
      | none => "?"
      | some node =>
        if node.type = GateType.INPUT then node.label
        else
          let inputWires := targetWires wires nodeId
          let sources := inputWires.map
            (fun w => buildExprFuel nodes wires fuel w.sourceNodeId (nodeId :: visited))
          if sources.length = 0 then orDefault node.label "?"
          else
            let a := orDefault (sources.getD 0 "") "0"
            let b := orDefault (sources.getD 1 "") "0"
            match node.type with
            | GateType.AND => "(" ++ a ++ " · " ++ b ++ ")"
            | GateType.OR => "(" ++ a ++ " + " ++ b ++ ")"
            | GateType.NOT => "¬" ++ a
            | GateType.NAND => "¬(" ++ a ++ " · " ++ b ++ ")"
            | GateType.NOR => "¬(" ++ a ++ " + " ++ b ++ ")"
            | GateType.XOR => "(" ++ a ++ " ⊕ " ++ b ++ ")"
            | GateType.OUTPUT => orDefault (sources.getD 0 "") "?"
            | GateType.INPUT => "?"

/-- Number of distinct node ids not yet on the visited path: the measure that
shrinks at every recursive call of buildExpr. -/
def newIdCount (nodes : List CircuitNode) (visited : List String) : Nat :=
  (((nodes.map (fun n => n.id)).dedup).filter (fun i => ! visited.contains i)).length

/-- Fuel that is always sufficient: one more than the number of distinct node
ids, which bounds how often the path-scoped visited set can grow. -/
def exprFuel (nodes : List CircuitNode) : Nat :=
  ((nodes.map (fun n => n.id)).dedup).length + 1

/-- The buildExpr closure of generateExpression, at its canonical fuel. -/
def buildExpr (nodes : List CircuitNode) (wires : List Wire) (nodeId : String)
    (visited : List String) : String :=
  buildExprFuel nodes wires (exprFuel nodes) nodeId visited

/-- Translation of generateExpression (src/utils/circuitLogic.ts, lines 120-155). -/
def generateExpression (nodes : List CircuitNode) (wires : List Wire) : String :=
  let outputs := nodes.filter (fun n => decide (n.type = GateType.OUTPUT))
  if outputs.length = 0 then "No Output"
  else String.intercalate "; "
    (outputs.map (fun out => out.label ++ " = " ++ buildExpr nodes wires out.id []))

/-- A node id occurs in the node list. -/
def idPresent (nodes : List CircuitNode) (x : String) : Prop :=
  ∃ n ∈ nodes, n.id = x

instance (nodes : List CircuitNode) (x : String) : Decidable (idPresent nodes x) := by
  unfold idPresent
  infer_instance

/-- Acyclicity of a Circuit's wire graph, in its standard rank
characterization: the nodes admit a rank that strictly increases along every
wire joining two present nodes, bounded by the node count (a finite directed
graph is acyclic exactly when such a rank exists). -/
def Acyclic (nodes : List CircuitNode) (wires : List Wire) : Prop :=
  ∃ depth : String → Nat,
    (∀ w ∈ wires, idPresent nodes w.sourceNodeId → idPresent nodes w.targetNodeId →
      depth w.sourceNodeId < depth w.targetNodeId) ∧
    (∀ n ∈ nodes, depth n.id < nodes.length)

/-- The value the snapshot holds for a node id, through the same find?-by-id
lookup the source uses (first node with the id wins). -/
def lookupVal (ns : List CircuitNode) (x : String) : Option Bool :=
  (ns.find? (fun n => n.id == x)).map (fun n => n.value)

/-- Two nodes that agree on every field except possibly the value. -/
def sameShape (a b : CircuitNode) : Prop :=
  a.id = b.id ∧ a.type = b.type ∧ a.label = b.label ∧ a.x = b.x ∧ a.y = b.y

/-- Convenience constructor for concrete test nodes. -/
def mkNode (id : String) (type : GateType) (label : String) (value : Bool) : CircuitNode :=
  { id := id, type := type, x := 0, y := 0, label := label, value := value }

/-- Convenience constructor for concrete test wires. -/
def mkWire (id src tgt : String) (pin : Nat) : Wire :=
  { id := id, sourceNodeId := src, sourcePinIndex := 0, targetNodeId := tgt,
    targetPinIndex := pin }

/-- Distinct node ids for the NOT chain, injective because the length of the
id equals the gate's position. -/
def chainId (k : Nat) : String := String.mk (List.replicate k 'a')

/-- A 51-gate NOT chain with no INPUT node: acyclic, but it needs more than
50 propagation passes to settle, so the evaluator's pass cap cuts it off. -/
def chainNodes : List CircuitNode :=
  (List.range 51).map (fun k => mkNode (chainId k) GateType.NOT "" false)

/-- The wires of the NOT chain: gate k feeds pin 0 of gate k+1. -/
def chainWires : List Wire :=
  (List.range 50).map (fun k => mkWire (chainId k) (chainId k) (chainId (k + 1)) 0)

/-- The value gate k of the NOT chain holds after j propagation passes: false
initially, the parity of j while the settled prefix has not yet reached gate
k, and the settled alternating value from pass k+1 on. -/
def chainVal (k j : Nat) : Bool :=
  if j = 0 then false else if j ≤ k then decide (j % 2 = 1) else decide (k % 2 = 0)

/-- Closed form of the NOT chain's snapshot after j propagation passes. -/
def chainState (j : Nat) : List CircuitNode :=
  (List.range 51).map (fun k => mkNode (chainId k) GateType.NOT "" (chainVal k j))

/-- An OR gate latched through its own pin 1, with an INPUT and an OUTPUT:
a cyclic circuit whose settled values depend on the gate's stored value. -/
def latchNodes (g : Bool) : List CircuitNode :=
  [mkNode "a" GateType.INPUT "A" false,
   mkNode "g" GateType.OR "OR" g,
   mkNode "y" GateType.OUTPUT "Y" false]

/-- Wires of the latch circuit: A drives pin 0 of the OR, the OR drives its
own pin 1 and the output. -/
def latchWires : List Wire :=
  [mkWire "w1" "a" "g" 0, mkWire "w2" "g" "g" 1, mkWire "w3" "g" "y" 0]

/-- Two INPUT nodes sharing the label A: the truth-table row object keys its
input assignment by label, so one of the two bits is lost. -/
def dupLabelNodes : List CircuitNode :=
  [mkNode "i1" GateType.INPUT "A" false, mkNode "i2" GateType.INPUT "A" false]

/-- A diamond: INPUT A feeds two NOT gates that reconverge on an AND, read by
an OUTPUT.  No wire is a back-edge, so no loop marker must appear. -/
def diamondNodes : List CircuitNode :=
  [mkNode "a" GateType.INPUT "A" false,
   mkNode "n1" GateType.NOT "NOT" false,
   mkNode "n2" GateType.NOT "NOT" false,
   mkNode "g" GateType.AND "AND" false,
   mkNode "y" GateType.OUTPUT "Y" false]

/-- Wires of the diamond circuit. -/
def diamondWires : List Wire :=
  [mkWire "w1" "a" "n1" 0, mkWire "w2" "a" "n2" 0,
   mkWire "w3" "n1" "g" 0, mkWire "w4" "n2" "g" 1,
   mkWire "w5" "g" "y" 0]

/-- An AND gate driven only on pin 1 by INPUT A, read by an OUTPUT. -/
def pinOneNodes : List CircuitNode :=
  [mkNode "a" GateType.INPUT "A" true,
   mkNode "g" GateType.AND "AND" false,
   mkNode "y" GateType.OUTPUT "Y" false]

/-- The single driving wire of the pin-1 circuit targets pin 1 of the AND. -/
def pinOneWires : List Wire :=
  [mkWire "w1" "a" "g" 1, mkWire "w2" "g" "y" 0]

/-- INPUT A through a NOT gate into OUTPUT Y: the small acyclic example. -/
def notNodes : List CircuitNode :=
  [mkNode "a" GateType.INPUT "A" false,
   mkNode "n" GateType.NOT "NOT" false,
   mkNode "y" GateType.OUTPUT "Y" false]

/-- Wires of the NOT example. -/
def notWires : List Wire :=
  [mkWire "w1" "a" "n" 0, mkWire "w2" "n" "y" 0]

/-- Two INPUT nodes with distinct labels A and B, for truth-table rows. -/
def twoInNodes : List CircuitNode :=
  [mkNode "i1" GateType.INPUT "A" false, mkNode "i2" GateType.INPUT "B" false]

/-- An AND gate fed by INPUT A on pin 0 and by its own output on pin 1 (a true
back-edge), read by OUTPUT Y. -/
def selfAndNodes : List CircuitNode :=
  [mkNode "a" GateType.INPUT "A" false,
   mkNode "g" GateType.AND "AND" false,
   mkNode "y" GateType.OUTPUT "Y" false]

/-- Wires of the self-loop AND circuit. -/
def selfAndWires : List Wire :=
  [mkWire "w1" "a" "g" 0, mkWire "w2" "g" "g" 1, mkWire "w3" "g" "y" 0]

/-- Thirty-one INPUT nodes with pairwise distinct ids and labels: enough for
the source's 32-bit row count `1 << 31` to go negative, so the loop body
never runs and the table comes back empty. -/
def big31Nodes : List CircuitNode :=
  (List.range 31).map (fun k => mkNode (chainId k) GateType.INPUT (chainId k) false)

/-- A NOT gate wired to its own input: the canonical oscillating circuit. -/
def oscNodes : List CircuitNode :=
  [mkNode "n" GateType.NOT "NOT" false]

/-- The self-loop wire of the oscillator. -/
def oscWires : List Wire :=
  [mkWire "w1" "n" "n" 0]

/-! Basic lemmas about the stable sort. -/

theorem length_insertBy (le : α → α → Bool) (a : α) (l : List α) :
    (insertBy le a l).length = l.length + 1 := by
  induction l with
  | nil => rfl
  | cons b l ih =>
    simp only [insertBy]
    split
    · rfl
    · simp only [List.length_cons, ih]

theorem length_sortBy (le : α → α → Bool) (l : List α) :
    (sortBy le l).length = l.length := by
  induction l with
  | nil => rfl
  | cons a l ih => simp only [sortBy, length_insertBy, ih, List.length_cons]

theorem mem_insertBy {le : α → α → Bool} {a c : α} {l : List α} :
    c ∈ insertBy le a l ↔ c = a ∨ c ∈ l := by
  induction l with
  | nil => simp [insertBy]
  | cons b l ih =>
    simp only [insertBy]
    split
    · simp [List.mem_cons]
    · simp only [List.mem_cons, ih]
      tauto

theorem mem_sortBy {le : α → α → Bool} {c : α} {l : List α} :
    c ∈ sortBy le l ↔ c ∈ l := by
  induction l with
  | nil => simp [sortBy]
  | cons a l ih =>
    simp only [sortBy, mem_insertBy, List.mem_cons, ih]

theorem mem_targetWires {w : Wire} {wires : List Wire} {x : String} :
    w ∈ targetWires wires x ↔ w ∈ wires ∧ w.targetNodeId = x := by
  unfold targetWires
  rw [mem_sortBy, List.mem_filter]
  simp

theorem pairwise_insertBy {le : α → α → Bool}
    (htot : ∀ a b, le a b || le b a)
    (htrans : ∀ a b c, le a b = true → le b c = true → le a c = true)
    {a : α} {l : List α} (hl : l.Pairwise (fun x y => le x y = true)) :
    (insertBy le a l).Pairwise (fun x y => le x y = true) := by
  induction l with
  | nil => simp [insertBy]
  | cons b l ih =>
    rcases List.pairwise_cons.mp hl with ⟨hb, hl'⟩
    simp only [insertBy]
    split
    case isTrue h =>
      refine List.pairwise_cons.mpr ⟨?_, hl⟩
      intro c hc
      rcases List.mem_cons.mp hc with rfl | hc
      · exact h
      · exact htrans a b c h (hb c hc)
    case isFalse h =>
      refine List.pairwise_cons.mpr ⟨?_, ih hl'⟩
      intro c hc
      rcases mem_insertBy.mp hc with rfl | hc
      · have := htot c b
        cases hab : le c b with
        | true => exact absurd hab h
        | false => simpa [hab] using this
      · exact hb c hc

theorem pairwise_sortBy {le : α → α → Bool}
    (htot : ∀ a b, le a b || le b a)
    (htrans : ∀ a b c, le a b = true → le b c = true → le a c = true)
    (l : List α) :
    (sortBy le l).Pairwise (fun x y => le x y = true) := by
  induction l with
  | nil => exact List.Pairwise.nil
  | cons a l ih => exact pairwise_insertBy htot htrans ih

/-! The label comparator agrees with the lexicographic order on strings. -/

theorem strLeb_eq_true_iff : ∀ as bs : List Char, strLeb as bs = true ↔ ¬ bs < as
  | [], bs => iff_of_true rfl (List.Lex.not_nil_right _ _)
  | a :: as, [] => iff_of_false (by simp [strLeb]) (fun h => h (List.nil_lt_cons a as))
  | a :: as, b :: bs => by
    simp only [strLeb]
    rcases lt_trichotomy a b with hab | hab | hab
    · rw [if_pos hab]
      refine iff_of_true rfl (fun h => ?_)
      cases h with
      | cons h => exact lt_irrefl a hab
      | rel h => exact lt_asymm hab h
    · subst hab
      rw [if_neg (lt_irrefl a), if_neg (lt_irrefl a)]
      rw [strLeb_eq_true_iff as bs]
      constructor
      · intro h hlex
        cases hlex with
        | cons h2 => exact h h2
        | rel h2 => exact lt_irrefl a h2
      · intro h hlex
        exact h (List.Lex.cons hlex)
    · rw [if_neg (lt_asymm hab), if_pos hab]
      exact iff_of_false (by simp) (fun h => h (List.Lex.rel hab))

theorem strLe_eq_true_iff {a b : String} : strLe a b = true ↔ a ≤ b := by
  rw [String.le_iff_toList_le, ← not_lt]
  exact strLeb_eq_true_iff a.data b.data

theorem strLe_total (a b : String) : strLe a b || strLe b a := by
  rcases le_total a b with h | h
  · simp [strLe_eq_true_iff.mpr h]
  · simp [strLe_eq_true_iff.mpr h]

theorem strLe_trans (a b c : String) (h1 : strLe a b = true) (h2 : strLe b c = true) :
    strLe a c = true :=
  strLe_eq_true_iff.mpr (le_trans (strLe_eq_true_iff.mp h1) (strLe_eq_true_iff.mp h2))

/-! Lemmas about the evaluator loop. -/

theorem simulateAux_stop {wires : List Wire} {N : List CircuitNode}
    (h : simulatePass N wires = N) : ∀ f, simulateAux wires f N = N
  | 0 => rfl
  | f + 1 => by simp [simulateAux, h]

theorem simulateAux_step {wires : List Wire} {N : List CircuitNode} {f : Nat}
    (h : simulatePass N wires ≠ N) :
    simulateAux wires (f + 1) N = simulateAux wires f (simulatePass N wires) := by
  simp [simulateAux, h]

theorem simulateIter_shift (wires : List Wire) (N : List CircuitNode) :
    ∀ j, simulateIter wires j (simulatePass N wires) = simulateIter wires (j + 1) N
  | 0 => rfl
  | j + 1 => by
    simp only [simulateIter, simulateIter_shift wires N j]

theorem simulateAux_eq_iter (wires : List Wire) :
    ∀ f N, ∃ k, k ≤ f ∧ simulateAux wires f N = simulateIter wires k N
  | 0, N => ⟨0, le_refl 0, rfl⟩
  | f + 1, N => by
    by_cases h : simulatePass N wires = N
    · exact ⟨0, Nat.zero_le _, simulateAux_stop h (f + 1)⟩
    · obtain ⟨k, hk, heq⟩ := simulateAux_eq_iter wires f (simulatePass N wires)
      refine ⟨k + 1, Nat.succ_le_succ hk, ?_⟩
      rw [simulateAux_step h, heq, simulateIter_shift]

theorem simulateAux_cap (wires : List Wire) :
    ∀ f N,
      (∀ j, j < f → simulatePass (simulateIter wires j N) wires ≠ simulateIter wires j N) →
      simulateAux wires f N = simulateIter wires f N
  | 0, _, _ => rfl
  | f + 1, N, h => by
    have h0 : simulatePass N wires ≠ N := h 0 (Nat.succ_pos f)
    rw [simulateAux_step h0]
    have hrec := simulateAux_cap wires f (simulatePass N wires) (fun j hj => by
      rw [simulateIter_shift]
      exact h (j + 1) (Nat.succ_lt_succ hj))
    rw [hrec, simulateIter_shift]

theorem simulateAux_early_stop (wires : List Wire) :
    ∀ k f N, k ≤ f →
      (∀ j, j < k → simulatePass (simulateIter wires j N) wires ≠ simulateIter wires j N) →
      simulatePass (simulateIter wires k N) wires = simulateIter wires k N →
      simulateAux wires f N = simulateIter wires k N
  | 0, f, _, _, _, hfix => simulateAux_stop hfix f
  | k + 1, f, N, hkf, hosc, hfix => by
    have h0 : simulatePass N wires ≠ N := hosc 0 (Nat.succ_pos k)
    obtain ⟨f', rfl⟩ : ∃ f', f = f' + 1 := ⟨f - 1, by omega⟩
    rw [simulateAux_step h0]
    have hrec := simulateAux_early_stop wires k f' (simulatePass N wires) (by omega)
      (fun j hj => by
        rw [simulateIter_shift]
        exact hosc (j + 1) (Nat.succ_lt_succ hj))
      (by rw [simulateIter_shift]; exact hfix)
    rw [hrec, simulateIter_shift]

theorem simulateAux_fixed (wires : List Wire) :
    ∀ f N m, m ≤ f →
      simulatePass (simulateIter wires m N) wires = simulateIter wires m N →
      simulatePass (simulateAux wires f N) wires = simulateAux wires f N
  | 0, N, m, hm, hfix => by
    have hm0 : m = 0 := Nat.le_zero.mp hm
    subst hm0
    exact hfix
  | f + 1, N, m, hm, hfix => by
    by_cases h : simulatePass N wires = N
    · rw [simulateAux_stop h (f + 1)]
      exact h
    · cases m with
      | zero => exact absurd hfix h
      | succ m' =>
        rw [simulateAux_step h]
        exact simulateAux_fixed wires f (simulatePass N wires) m' (by omega)
          (by rw [simulateIter_shift]; exact hfix)

/-! Shape preservation: a pass only rewrites values. -/

theorem sameShape_refl (a : CircuitNode) : sameShape a a := ⟨rfl, rfl, rfl, rfl, rfl⟩

theorem sameShape_trans {a b c : CircuitNode} (h1 : sameShape a b) (h2 : sameShape b c) :
    sameShape a c := by
  obtain ⟨e1, e2, e3, e4, e5⟩ := h1
  obtain ⟨f1, f2, f3, f4, f5⟩ := h2
  exact ⟨e1.trans f1, e2.trans f2, e3.trans f3, e4.trans f4, e5.trans f5⟩

theorem forall₂_trans_of {R : α → α → Prop} (ht : ∀ a b c, R a b → R b c → R a c) :
    ∀ {l₁ l₂ l₃ : List α}, List.Forall₂ R l₁ l₂ → List.Forall₂ R l₂ l₃ →
      List.Forall₂ R l₁ l₃ := by
  intro l₁ l₂ l₃ h12
  induction h12 generalizing l₃ with
  | nil =>
    intro h23
    cases h23
    exact List.Forall₂.nil
  | cons hab h12 ih =>
    intro h23
    cases h23 with
    | cons hbc h23 => exact List.Forall₂.cons (ht _ _ _ hab hbc) (ih h23)

theorem stepNode_id (wires : List Wire) (ns : List CircuitNode) (node : CircuitNode) :
    (stepNode wires ns node).id = node.id := by
  unfold stepNode
  split <;> rfl

theorem stepNode_sameShape (wires : List Wire) (ns : List CircuitNode) (node : CircuitNode) :
    sameShape node (stepNode wires ns node) := by
  unfold stepNode
  split
  · exact sameShape_refl node
  · exact ⟨rfl, rfl, rfl, rfl, rfl⟩

theorem simulatePass_shape (ns : List CircuitNode) (wires : List Wire) :
    List.Forall₂ sameShape ns (simulatePass ns wires) := by
  unfold simulatePass
  rw [List.forall₂_map_right_iff]
  exact List.forall₂_same.mpr (fun a _ => stepNode_sameShape wires ns a)

theorem simulateIter_shape (wires : List Wire) (nodes : List CircuitNode) :
    ∀ k, List.Forall₂ sameShape nodes (simulateIter wires k nodes)
  | 0 => List.forall₂_same.mpr (fun a _ => sameShape_refl a)
  | k + 1 =>
    @forall₂_trans_of _ sameShape (fun _ _ _ h1 h2 => sameShape_trans h1 h2) _ _ _
      (simulateIter_shape wires nodes k)
      (simulatePass_shape (simulateIter wires k nodes) wires)

theorem find?_of_forall₂ {R : α → β → Prop} {p : α → Bool} {q : β → Bool}
    (hpq : ∀ a b, R a b → p a = q b) :
    ∀ {l₁ : List α} {l₂ : List β}, List.Forall₂ R l₁ l₂ →
      (l₁.find? p = none ∧ l₂.find? q = none) ∨
      (∃ a b, l₁.find? p = some a ∧ l₂.find? q = some b ∧ R a b) := by
  intro l₁ l₂ h
  induction h with
  | nil => exact Or.inl ⟨rfl, rfl⟩
  | @cons a b l₁ l₂ h1 h2 ih =>
    have hab := hpq a b h1
    cases hpa : p a with
    | false =>
      have hqb : q b = false := by rw [← hab, hpa]
      rw [List.find?_cons_of_neg _ (by simp [hpa]), List.find?_cons_of_neg _ (by simp [hqb])]
      exact ih
    | true =>
      have hqb : q b = true := by rw [← hab, hpa]
      rw [List.find?_cons_of_pos _ hpa, List.find?_cons_of_pos _ hqb]
      exact Or.inr ⟨a, b, rfl, rfl, h1⟩

/-! Value lookup through one pass. -/

theorem find?_id_simulatePass (wires : List Wire) (ns : List CircuitNode) (x : String) :
    (simulatePass ns wires).find? (fun n => n.id == x) =
      (ns.find? (fun n => n.id == x)).map (stepNode wires ns) := by
  unfold simulatePass
  rw [List.find?_map]
  have hp : ((fun n => n.id == x) ∘ stepNode wires ns) = (fun n => n.id == x) := by
    funext n
    simp [Function.comp, stepNode_id]
  rw [hp]

theorem lookupVal_simulatePass_none {ns : List CircuitNode} {x : String}
    (h : ns.find? (fun n => n.id == x) = none) (wires : List Wire) :
    lookupVal (simulatePass ns wires) x = none := by
  unfold lookupVal
  rw [find?_id_simulatePass, h]
  rfl

theorem lookupVal_simulatePass_some {ns : List CircuitNode} {x : String} {n : CircuitNode}
    (h : ns.find? (fun n => n.id == x) = some n) (wires : List Wire) :
    lookupVal (simulatePass ns wires) x =
      some (if n.type = GateType.INPUT then n.value
        else evaluateGate n.type (getNodeInputs x wires ns)) := by
  have hid : n.id = x := by
    have hx := List.find?_some h
    simpa using hx
  unfold lookupVal
  rw [find?_id_simulatePass, h, Option.map_some']
  unfold stepNode
  split
  · rfl
  · rw [hid]
    rfl

theorem lookupVal_none_iter {nodes : List CircuitNode} {x : String}
    (h : nodes.find? (fun n => n.id == x) = none) (wires : List Wire) :
    ∀ k, lookupVal (simulateIter wires k nodes) x = none := by
  have hstep : ∀ k, (simulateIter wires k nodes).find? (fun n => n.id == x) = none := by
    intro k
    induction k with
    | zero => exact h
    | succ k ih =>
      show (simulatePass (simulateIter wires k nodes) wires).find? _ = none
      rw [find?_id_simulatePass, ih]
      rfl
  intro k
  unfold lookupVal
  rw [hstep k]
  rfl

theorem find?_id_iter_some {nodes : List CircuitNode} {x : String} {n : CircuitNode}
    (h : nodes.find? (fun n => n.id == x) = some n) (wires : List Wire) :
    ∀ k, ∃ nk, (simulateIter wires k nodes).find? (fun n => n.id == x) = some nk ∧
      sameShape n nk := by
  intro k
  have hcorr := @find?_of_forall₂ CircuitNode CircuitNode sameShape
    (fun n => n.id == x) (fun n => n.id == x)
    (fun a b hab => by
      show (a.id == x) = (b.id == x)
      rw [hab.1]) _ _ (simulateIter_shape wires nodes k)
  rcases hcorr with ⟨h1, _⟩ | ⟨a, b, h1, h2, hab⟩
  · rw [h] at h1
    exact absurd h1 (by simp)
  · rw [h] at h1
    obtain rfl : n = a := by
      have hna := h1
      simp only [Option.some_inj] at hna
      exact hna
    exact ⟨b, h2, hab⟩

/-! getNodeInputs depends only on the looked-up source values. -/

theorem foldl_congr_mem {l : List α} {f g : β → α → β}
    (h : ∀ a ∈ l, ∀ acc, f acc a = g acc a) :
    ∀ b, l.foldl f b = l.foldl g b := by
  induction l with
  | nil => intro b; rfl
  | cons a l ih =>
    intro b
    simp only [List.foldl_cons]
    rw [h a (List.mem_cons_self a l)]
    exact ih (fun y hy acc => h y (List.mem_cons_of_mem a hy) acc) _

theorem getNodeInputs_congr {x : String} {wires : List Wire} {ns1 ns2 : List CircuitNode}
    (h : ∀ w ∈ wires, w.targetNodeId = x →
      lookupVal ns1 w.sourceNodeId = lookupVal ns2 w.sourceNodeId) :
    getNodeInputs x wires ns1 = getNodeInputs x wires ns2 := by
  unfold getNodeInputs
  apply foldl_congr_mem
  intro w hw acc
  have hw2 := mem_targetWires.mp hw
  have hv := h w hw2.1 hw2.2
  unfold lookupVal at hv
  cases e1 : ns1.find? (fun n => n.id == w.sourceNodeId) with
  | none =>
    cases e2 : ns2.find? (fun n => n.id == w.sourceNodeId) with
    | none => simp only [e1, e2]
    | some n2 => rw [e1, e2] at hv; simp at hv
  | some n1 =>
    cases e2 : ns2.find? (fun n => n.id == w.sourceNodeId) with
    | none => rw [e1, e2] at hv; simp at hv
    | some n2 =>
      rw [e1, e2] at hv
      simp only [Option.map_some', Option.some_inj] at hv
      simp only [e1, e2, hv]

/-! Settling of an acyclic circuit: by induction on the rank of a node id,
its looked-up value stops changing one pass after all its sources settle. -/

theorem lookupVal_iter_input {nodes : List CircuitNode} {x : String} {n : CircuitNode}
    (h : nodes.find? (fun n => n.id == x) = some n) (ht : n.type = GateType.INPUT)
    (wires : List Wire) :
    ∀ k, lookupVal (simulateIter wires k nodes) x = lookupVal nodes x := by
  intro k
  induction k with
  | zero => rfl
  | succ k ih =>
    obtain ⟨nk, hk, hshape⟩ := find?_id_iter_some h wires k
    show lookupVal (simulatePass (simulateIter wires k nodes) wires) x = _
    rw [lookupVal_simulatePass_some hk wires]
    have htk : nk.type = GateType.INPUT := by rw [← hshape.2.1]; exact ht
    rw [if_pos htk, ← ih]
    unfold lookupVal
    rw [hk]
    rfl

theorem settle_main {nodes : List CircuitNode} {wires : List Wire} {depth : String → Nat}
    (hmono : ∀ w ∈ wires, idPresent nodes w.sourceNodeId → idPresent nodes w.targetNodeId →
      depth w.sourceNodeId < depth w.targetNodeId) :
    ∀ d x, depth x < d → ∀ j, depth x + 1 ≤ j →
      lookupVal (simulateIter wires j nodes) x =
        lookupVal (simulateIter wires (depth x + 1) nodes) x := by
  intro d
  induction d with
  | zero =>
    intro x hx
    exact absurd hx (Nat.not_lt_zero _)
  | succ d ih =>
    intro x hx j hj
    cases e : nodes.find? (fun n => n.id == x) with
    | none => rw [lookupVal_none_iter e wires j, lookupVal_none_iter e wires (depth x + 1)]
    | some n =>
      by_cases ht : n.type = GateType.INPUT
      · rw [lookupVal_iter_input e ht wires j, lookupVal_iter_input e ht wires (depth x + 1)]
      · have hxpres : idPresent nodes x :=
          ⟨n, List.mem_of_find?_eq_some e, by have hb := List.find?_some e; simpa using hb⟩
        have hgni : ∀ j', depth x ≤ j' →
            getNodeInputs x wires (simulateIter wires j' nodes) =
              getNodeInputs x wires (simulateIter wires (depth x) nodes) := by
          intro j' hj'
          apply getNodeInputs_congr
          intro w hw htgt
          by_cases hs : idPresent nodes w.sourceNodeId
          · have hd : depth w.sourceNodeId < depth x := by
              have hlt := hmono w hw hs (by rw [htgt]; exact hxpres)
              rwa [htgt] at hlt
            have h1 := ih w.sourceNodeId (by omega) j' (by omega)
            have h2 := ih w.sourceNodeId (by omega) (depth x) (by omega)
            rw [h1, h2]
          · have hnone : nodes.find? (fun n => n.id == w.sourceNodeId) = none := by
              cases efind : nodes.find? (fun n => n.id == w.sourceNodeId) with
              | none => rfl
              | some m =>
                exact absurd ⟨m, List.mem_of_find?_eq_some efind, by
                  have hb := List.find?_some efind; simpa using hb⟩ hs
            rw [lookupVal_none_iter hnone wires j', lookupVal_none_iter hnone wires (depth x)]
        have hval : ∀ j', depth x ≤ j' →
            lookupVal (simulateIter wires (j' + 1) nodes) x =
              some (evaluateGate n.type
                (getNodeInputs x wires (simulateIter wires (depth x) nodes))) := by
          intro j' hj'
          obtain ⟨nk, hk, hshape⟩ := find?_id_iter_some e wires j'
          show lookupVal (simulatePass (simulateIter wires j' nodes) wires) x = _
          rw [lookupVal_simulatePass_some hk wires]
          have htk : ¬ nk.type = GateType.INPUT := by rw [← hshape.2.1]; exact ht
          rw [if_neg htk, ← hshape.2.1, hgni j' hj']
        obtain ⟨j', rfl⟩ : ∃ j', j = j' + 1 := ⟨j - 1, by omega⟩
        rw [hval j' (by omega), hval (depth x) (le_refl _)]

theorem gni_stable {nodes : List CircuitNode} {wires : List Wire} {depth : String → Nat}
    (hmono : ∀ w ∈ wires, idPresent nodes w.sourceNodeId → idPresent nodes w.targetNodeId →
      depth w.sourceNodeId < depth w.targetNodeId)
    {x : String} (hx : idPresent nodes x) :
    ∀ j, depth x ≤ j →
      getNodeInputs x wires (simulateIter wires j nodes) =
        getNodeInputs x wires (simulateIter wires (depth x) nodes) := by
  intro j hj
  apply getNodeInputs_congr
  intro w hw htgt
  by_cases hs : idPresent nodes w.sourceNodeId
  · have hd : depth w.sourceNodeId < depth x := by
      have hlt := hmono w hw hs (by rw [htgt]; exact hx)
      rwa [htgt] at hlt
    have h1 := settle_main hmono (depth x) w.sourceNodeId hd j (by omega)
    have h2 := settle_main hmono (depth x) w.sourceNodeId hd (depth x) (by omega)
    rw [h1, h2]
  · have hnone : nodes.find? (fun n => n.id == w.sourceNodeId) = none := by
      cases efind : nodes.find? (fun n => n.id == w.sourceNodeId) with
      | none => rfl
      | some m =>
        exact absurd ⟨m, List.mem_of_find?_eq_some efind, by
          have hb := List.find?_some efind; simpa using hb⟩ hs
    rw [lookupVal_none_iter hnone wires j, lookupVal_none_iter hnone wires (depth x)]

/-! Per-position settling and the global fixed point. -/

theorem stepNode_input {n : CircuitNode} (h : n.type = GateType.INPUT)
    (wires : List Wire) (ns : List CircuitNode) : stepNode wires ns n = n := by
  unfold stepNode
  rw [if_pos h]

theorem sameShape_set_value {a b : CircuitNode} (h : sameShape a b) (v : Bool) :
    { a with value := v } = { b with value := v } := by
  obtain ⟨h1, h2, h3, h4, h5⟩ := h
  cases a
  cases b
  simp_all

theorem simulateIter_getElem?_input {nodes : List CircuitNode} {wires : List Wire}
    {i : Nat} {n : CircuitNode} (hi : nodes[i]? = some n) (ht : n.type = GateType.INPUT) :
    ∀ k, (simulateIter wires k nodes)[i]? = some n := by
  intro k
  induction k with
  | zero => exact hi
  | succ k ih =>
    show (simulatePass (simulateIter wires k nodes) wires)[i]? = some n
    unfold simulatePass
    rw [List.getElem?_map, ih, Option.map_some', stepNode_input ht]

theorem simulateIter_getElem?_shape {nodes : List CircuitNode} {wires : List Wire}
    {i : Nat} (hi : i < nodes.length) (k : Nat) :
    ∃ a, (simulateIter wires k nodes)[i]? = some a ∧
      sameShape (nodes.get ⟨i, hi⟩) a := by
  have hshape := simulateIter_shape wires nodes k
  have hlen := hshape.length_eq
  rw [List.forall₂_iff_get] at hshape
  obtain ⟨hl, hg⟩ := hshape
  have hi2 : i < (simulateIter wires k nodes).length := by omega
  exact ⟨(simulateIter wires k nodes).get ⟨i, hi2⟩, List.getElem?_eq_getElem hi2,
    hg i hi hi2⟩

theorem sameShape_symm {a b : CircuitNode} (h : sameShape a b) : sameShape b a := by
  obtain ⟨h1, h2, h3, h4, h5⟩ := h
  exact ⟨h1.symm, h2.symm, h3.symm, h4.symm, h5.symm⟩

theorem settle_idx {nodes : List CircuitNode} {wires : List Wire} {depth : String → Nat}
    (hmono : ∀ w ∈ wires, idPresent nodes w.sourceNodeId → idPresent nodes w.targetNodeId →
      depth w.sourceNodeId < depth w.targetNodeId)
    {i : Nat} {n : CircuitNode} (hi : nodes[i]? = some n) :
    ∀ j, depth n.id + 1 ≤ j →
      (simulateIter wires j nodes)[i]? = (simulateIter wires (depth n.id + 1) nodes)[i]? := by
  by_cases ht : n.type = GateType.INPUT
  · intro j hj
    rw [simulateIter_getElem?_input hi ht j, simulateIter_getElem?_input hi ht (depth n.id + 1)]
  · have hilt : i < nodes.length := by
      by_contra hge
      rw [List.getElem?_eq_none (by omega)] at hi
      cases hi
    have hbase : nodes.get ⟨i, hilt⟩ = n := by
      have hg := List.getElem?_eq_getElem hilt
      rw [hi] at hg
      simpa using hg.symm
    have hpres : idPresent nodes n.id := ⟨n, by rw [← hbase]; exact List.get_mem nodes i hilt, rfl⟩
    have hval : ∀ j', depth n.id ≤ j' →
        (simulateIter wires (j' + 1) nodes)[i]? =
          some { n with
            value := evaluateGate n.type
              (getNodeInputs n.id wires (simulateIter wires (depth n.id) nodes)) } := by
      intro j' hj'
      obtain ⟨a, ha, hsh⟩ := @simulateIter_getElem?_shape nodes wires i hilt j'
      rw [hbase] at hsh
      show (simulatePass (simulateIter wires j' nodes) wires)[i]? = _
      unfold simulatePass
      rw [List.getElem?_map, ha, Option.map_some']
      have hta : ¬ a.type = GateType.INPUT := by rw [← hsh.2.1]; exact ht
      unfold stepNode
      rw [if_neg hta]
      have hveq : evaluateGate a.type (getNodeInputs a.id wires (simulateIter wires j' nodes)) =
          evaluateGate n.type
            (getNodeInputs n.id wires (simulateIter wires (depth n.id) nodes)) := by
        rw [← hsh.1, ← hsh.2.1, gni_stable hmono hpres j' hj']
      rw [hveq]
      exact congrArg some (sameShape_set_value (sameShape_symm hsh) _)
    intro j hj
    obtain ⟨j', rfl⟩ : ∃ j', j = j' + 1 := ⟨j - 1, by omega⟩
    rw [hval j' (by omega), hval (depth n.id) (le_refl _)]

theorem simulateIter_length (wires : List Wire) (nodes : List CircuitNode) (k : Nat) :
    (simulateIter wires k nodes).length = nodes.length :=
  ((simulateIter_shape wires nodes k).length_eq).symm

theorem acyclic_iter_fixed {nodes : List CircuitNode} {wires : List Wire}
    (h : Acyclic nodes wires) :
    simulatePass (simulateIter wires nodes.length nodes) wires =
      simulateIter wires nodes.length nodes := by
  obtain ⟨depth, hmono, hbound⟩ := h
  show simulateIter wires (nodes.length + 1) nodes = simulateIter wires nodes.length nodes
  apply List.ext_getElem?
  intro i
  by_cases hi : i < nodes.length
  · have hsome : nodes[i]? = some (nodes.get ⟨i, hi⟩) := List.getElem?_eq_getElem hi
    have hd := hbound (nodes.get ⟨i, hi⟩) (List.get_mem nodes i hi)
    have h1 := settle_idx hmono hsome (nodes.length + 1) (by omega)
    have h2 := settle_idx hmono hsome nodes.length (by omega)
    rw [h1, h2]
  · have e1 : (simulateIter wires (nodes.length + 1) nodes)[i]? = none :=
      List.getElem?_eq_none (by rw [simulateIter_length]; omega)
    have e2 : (simulateIter wires nodes.length nodes)[i]? = none :=
      List.getElem?_eq_none (by rw [simulateIter_length]; omega)
    rw [e1, e2]

theorem acyclic_simulateCircuit_fixed {nodes : List CircuitNode} {wires : List Wire}
    (h : Acyclic nodes wires) (h50 : nodes.length ≤ 50) :
    simulatePass (simulateCircuit nodes wires) wires = simulateCircuit nodes wires :=
  simulateAux_fixed wires 50 nodes nodes.length h50 (acyclic_iter_fixed h)

theorem simulateCircuit_of_fixed {nodes : List CircuitNode} {wires : List Wire}
    (h : simulatePass nodes wires = nodes) : simulateCircuit nodes wires = nodes :=
  simulateAux_stop h 50

/-! Fuel irrelevance for the expression builder: any fuel above the number of
distinct unvisited node ids produces the same expansion, which is exactly the
termination argument for the source's recursion. -/

theorem newIdCount_lt_exprFuel (nodes : List CircuitNode) (visited : List String) :
    newIdCount nodes visited < exprFuel nodes := by
  unfold newIdCount exprFuel
  have hle := List.length_filter_le (fun i => ! visited.contains i)
    ((nodes.map (fun n => n.id)).dedup)
  omega

theorem newIdCount_cons_lt {nodes : List CircuitNode} {visited : List String} {nodeId : String}
    (hmem : nodeId ∈ nodes.map (fun n => n.id)) (hvis : visited.contains nodeId = false) :
    newIdCount nodes (nodeId :: visited) < newIdCount nodes visited := by
  unfold newIdCount
  have hpred : ∀ i ∈ (nodes.map (fun n => n.id)).dedup,
      (! (nodeId :: visited).contains i) = ((i != nodeId) && (! visited.contains i)) := by
    intro i _
    rw [List.contains_cons]
    cases hin : i == nodeId with
    | true =>
      have heq : i = nodeId := eq_of_beq hin
      subst heq
      simp [hvis]
    | false => simp [bne, hin]
  rw [List.filter_congr hpred]
  have hsplit : ((nodes.map (fun n => n.id)).dedup).filter
        (fun i => (i != nodeId) && (! visited.contains i)) =
      (((nodes.map (fun n => n.id)).dedup).filter (fun i => ! visited.contains i)).filter
        (fun i => i != nodeId) := by
    rw [List.filter_filter]
  rw [hsplit]
  apply List.length_filter_lt_length_iff_exists.mpr
  refine ⟨nodeId, ?_, by simp⟩
  rw [List.mem_filter]
  refine ⟨List.mem_dedup.mpr hmem, ?_⟩
  show (! visited.contains nodeId) = true
  rw [hvis]
  rfl

theorem buildExprFuel_mono (nodes : List CircuitNode) (wires : List Wire) :
    ∀ f1 f2 nodeId visited, newIdCount nodes visited < f1 → f1 ≤ f2 →
      buildExprFuel nodes wires f1 nodeId visited = buildExprFuel nodes wires f2 nodeId visited
  | 0, _, _, _, h1, _ => absurd h1 (Nat.not_lt_zero _)
  | k + 1, f2, nodeId, visited, h1, h12 => by
    obtain ⟨l, rfl⟩ : ∃ l, f2 = l + 1 := ⟨f2 - 1, by omega⟩
    simp only [buildExprFuel]
    cases hvis : visited.contains nodeId with
    | true => simp [hvis]
    | false =>
      cases hfind : nodes.find? (fun n => n.id == nodeId) with
      | none => simp [hfind]
      | some node =>
        by_cases htype : node.type = GateType.INPUT
        · simp [hfind, htype]
        · have hmap : (targetWires wires nodeId).map
                (fun w => buildExprFuel nodes wires k w.sourceNodeId (nodeId :: visited)) =
              (targetWires wires nodeId).map
                (fun w => buildExprFuel nodes wires l w.sourceNodeId (nodeId :: visited)) := by
            apply List.map_congr_left
            intro w _
            apply buildExprFuel_mono nodes wires k l w.sourceNodeId (nodeId :: visited) ?_ (by omega)
            have hmem : nodeId ∈ nodes.map (fun n => n.id) := by
              have hn := List.mem_of_find?_eq_some hfind
              have hb := List.find?_some hfind
              exact List.mem_map.mpr ⟨node, hn, by simpa using hb⟩
            have hlt := newIdCount_cons_lt hmem hvis
            omega
          simp only [hfind, hmap]

theorem buildExprFuel_stable {nodes : List CircuitNode} {wires : List Wire}
    {nodeId : String} {visited : List String} {f : Nat}
    (hf : newIdCount nodes visited < f) :
    buildExprFuel nodes wires f nodeId visited = buildExpr nodes wires nodeId visited := by
  unfold buildExpr
  rcases le_total f (exprFuel nodes) with h | h
  · exact buildExprFuel_mono nodes wires f (exprFuel nodes) nodeId visited hf h
  · exact (buildExprFuel_mono nodes wires (exprFuel nodes) f nodeId visited
      (newIdCount_lt_exprFuel nodes visited) h).symm

/-! Unfolding equations for buildExpr at its canonical fuel. -/

theorem buildExpr_visited {nodes : List CircuitNode} {wires : List Wire}
    {nodeId : String} {visited : List String} (h : visited.contains nodeId = true) :
    buildExpr nodes wires nodeId visited = "[LOOP]" := by
  unfold buildExpr exprFuel
  simp only [buildExprFuel]
  rw [h, if_pos rfl]

theorem buildExpr_not_found {nodes : List CircuitNode} {wires : List Wire}
    {nodeId : String} {visited : List String} (hv : visited.contains nodeId = false)
    (h : nodes.find? (fun n => n.id == nodeId) = none) :
    buildExpr nodes wires nodeId visited = "?" := by
  unfold buildExpr exprFuel
  simp only [buildExprFuel]
  rw [hv, if_neg (show ¬ (false = true) by simp), h]

theorem buildExpr_input {nodes : List CircuitNode} {wires : List Wire}
    {nodeId : String} {visited : List String} {n : CircuitNode}
    (hv : visited.contains nodeId = false)
    (h : nodes.find? (fun n => n.id == nodeId) = some n)
    (ht : n.type = GateType.INPUT) :
    buildExpr nodes wires nodeId visited = n.label := by
  unfold buildExpr exprFuel
  simp only [buildExprFuel]
  rw [hv, if_neg (show ¬ (false = true) by simp), h]
  dsimp only
  rw [if_pos ht]

theorem buildExpr_gate {nodes : List CircuitNode} {wires : List Wire}
    {nodeId : String} {visited : List String} {n : CircuitNode}
    (hv : visited.contains nodeId = false)
    (h : nodes.find? (fun n => n.id == nodeId) = some n)
    (ht : ¬ n.type = GateType.INPUT) :
    buildExpr nodes wires nodeId visited =
      (let sources := (targetWires wires nodeId).map
          (fun w => buildExpr nodes wires w.sourceNodeId (nodeId :: visited))
       if sources.length = 0 then orDefault n.label "?"
       else
         let a := orDefault (sources.getD 0 "") "0"
         let b := orDefault (sources.getD 1 "") "0"
         match n.type with
         | GateType.AND => "(" ++ a ++ " · " ++ b ++ ")"
         | GateType.OR => "(" ++ a ++ " + " ++ b ++ ")"
         | GateType.NOT => "¬" ++ a
         | GateType.NAND => "¬(" ++ a ++ " · " ++ b ++ ")"
         | GateType.NOR => "¬(" ++ a ++ " + " ++ b ++ ")"
         | GateType.XOR => "(" ++ a ++ " ⊕ " ++ b ++ ")"
         | GateType.OUTPUT => orDefault (sources.getD 0 "") "?"
         | GateType.INPUT => "?") := by
  have hmem : nodeId ∈ nodes.map (fun n => n.id) := by
    have hn := List.mem_of_find?_eq_some h
    have hb := List.find?_some h
    exact List.mem_map.mpr ⟨n, hn, by simpa using hb⟩
  have hlt : newIdCount nodes (nodeId :: visited) <
      ((nodes.map (fun n => n.id)).dedup).length := by
    have h1 := newIdCount_cons_lt hmem hv
    have h2 : newIdCount nodes visited ≤ ((nodes.map (fun n => n.id)).dedup).length := by
      unfold newIdCount
      exact List.length_filter_le _ _
    omega
  have hmap : (targetWires wires nodeId).map
        (fun w => buildExprFuel nodes wires ((nodes.map (fun n => n.id)).dedup).length
          w.sourceNodeId (nodeId :: visited)) =
      (targetWires wires nodeId).map
        (fun w => buildExpr nodes wires w.sourceNodeId (nodeId :: visited)) :=
    List.map_congr_left (fun w _ => buildExprFuel_stable hlt)
  unfold buildExpr exprFuel
  simp only [buildExprFuel]
  rw [hv, if_neg (show ¬ (false = true) by simp), h]
  dsimp only
  rw [if_neg ht, hmap]
  rfl

/-! Reduction lemmas for generateExpression and generateTruthTable. -/

theorem generateExpression_no_output {nodes : List CircuitNode} {wires : List Wire}
    (h : nodes.filter (fun n => decide (n.type = GateType.OUTPUT)) = []) :
    generateExpression nodes wires = "No Output" := by
  unfold generateExpression
  rw [h]
  rfl

theorem generateExpression_of_outputs {nodes : List CircuitNode} {wires : List Wire}
    (h : nodes.filter (fun n => decide (n.type = GateType.OUTPUT)) ≠ []) :
    generateExpression nodes wires = String.intercalate "; "
      ((nodes.filter (fun n => decide (n.type = GateType.OUTPUT))).map
        (fun out => out.label ++ " = " ++ buildExpr nodes wires out.id [])) := by
  unfold generateExpression
  rw [if_neg (fun hc => h (List.length_eq_zero.mp hc))]

theorem generateTruthTable_no_inputs {nodes : List CircuitNode} {wires : List Wire}
    (h : nodes.filter (fun n => decide (n.type = GateType.INPUT)) = []) :
    generateTruthTable nodes wires = [] := by
  unfold generateTruthTable
  rw [h]
  rfl

theorem sortByLabel_length (l : List CircuitNode) : (sortByLabel l).length = l.length :=
  length_sortBy _ l

theorem generateTruthTable_of_inputs {nodes : List CircuitNode} {wires : List Wire}
    (h : nodes.filter (fun n => decide (n.type = GateType.INPUT)) ≠ []) :
    generateTruthTable nodes wires =
      (List.range (jsShlOne (sortByLabel
          (nodes.filter (fun n => decide (n.type = GateType.INPUT)))).length).toNat).map (fun i =>
        { inputs := rowInputsFor
            (sortByLabel (nodes.filter (fun n => decide (n.type = GateType.INPUT)))) i
          outputs := rowOutputsFor nodes wires
            (sortByLabel (nodes.filter (fun n => decide (n.type = GateType.INPUT))))
            (sortByLabel (nodes.filter (fun n => decide (n.type = GateType.OUTPUT)))) i }) := by
  unfold generateTruthTable
  rw [if_neg (fun hc => h ?_)]
  have hlen := sortByLabel_length (nodes.filter (fun n => decide (n.type = GateType.INPUT)))
  rw [hlen] at hc
  exact List.length_eq_zero.mp hc

theorem generateTruthTable_length {nodes : List CircuitNode} {wires : List Wire}
    (h : nodes.filter (fun n => decide (n.type = GateType.INPUT)) ≠ []) :
    (generateTruthTable nodes wires).length =
      (jsShlOne (nodes.filter (fun n => decide (n.type = GateType.INPUT))).length).toNat := by
  rw [generateTruthTable_of_inputs h, List.length_map, List.length_range, sortByLabel_length]

theorem jsShlOne_small {n : Nat} (h : n ≤ 30) : (jsShlOne n).toNat = 2 ^ n := by
  unfold jsShlOne toInt32
  have h32 : n % 32 = n := Nat.mod_eq_of_lt (by omega)
  rw [h32]
  have hlt : 2 ^ n < 2 ^ 31 := Nat.pow_lt_pow_right one_lt_two (by omega)
  have hlt32 : 2 ^ n < 2 ^ 32 := Nat.pow_lt_pow_right one_lt_two (by omega)
  rw [Nat.mod_eq_of_lt hlt32, if_pos (by exact_mod_cast hlt)]
  exact Int.toNat_natCast (2 ^ n)

theorem jsShr_small {k : Nat} (h : k < 32) (i : Nat) : jsShr i k = i >>> k := by
  unfold jsShr
  rw [Nat.mod_eq_of_lt h]

/-! Record lemmas: reading back what was written, with later distinct keys
leaving an entry untouched. -/

theorem find?_map_set (k : String) (v : Bool) :
    ∀ r : List (String × Bool), (∃ p ∈ r, (p.1 == k) = true) →
      (r.map (fun p => if p.1 == k then (k, v) else p)).find? (fun p => p.1 == k) =
        some (k, v)
  | [], h => absurd h (by simp)
  | q :: r, h => by
    simp only [List.map_cons]
    cases hq : q.1 == k with
    | true =>
      rw [if_pos rfl]
      exact List.find?_cons_of_pos _ (by simp)
    | false =>
      rw [if_neg Bool.false_ne_true]
      have h1 : List.find? (fun p => p.1 == k)
          (q :: r.map (fun p => if p.1 == k then (k, v) else p)) =
          List.find? (fun p => p.1 == k)
            (r.map (fun p => if p.1 == k then (k, v) else p)) :=
        List.find?_cons_of_neg _ (by rw [hq]; exact Bool.false_ne_true)
      rw [h1]
      apply find?_map_set k v r
      obtain ⟨p, hp, hpk⟩ := h
      rcases List.mem_cons.mp hp with rfl | hp
      · rw [hq] at hpk
        cases hpk
      · exact ⟨p, hp, hpk⟩

theorem find?_map_set_other {k k' : String} (v : Bool) (hne : k' ≠ k) :
    ∀ r : List (String × Bool),
      (r.map (fun p => if p.1 == k then (k, v) else p)).find? (fun p => p.1 == k') =
        r.find? (fun p => p.1 == k')
  | [] => rfl
  | q :: r => by
    simp only [List.map_cons]
    cases hq : q.1 == k with
    | true =>
      rw [if_pos rfl]
      have hqk : q.1 = k := eq_of_beq hq
      have hq' : (q.1 == k') = false := by
        rw [hqk]
        exact beq_eq_false_iff_ne.mpr (Ne.symm hne)
      have h1 : List.find? (fun p => p.1 == k')
          ((k, v) :: r.map (fun p => if p.1 == k then (k, v) else p)) =
          List.find? (fun p => p.1 == k')
            (r.map (fun p => if p.1 == k then (k, v) else p)) :=
        List.find?_cons_of_neg _ (by
          show ¬ ((k == k') = true)
          simp only [beq_iff_eq]
          exact Ne.symm hne)
      have h2 : List.find? (fun p => p.1 == k') (q :: r) =
          List.find? (fun p => p.1 == k') r :=
        List.find?_cons_of_neg _ (by rw [hq']; exact Bool.false_ne_true)
      rw [h1, h2]
      exact find?_map_set_other v hne r
    | false =>
      rw [if_neg Bool.false_ne_true]
      cases hq' : q.1 == k' with
      | true =>
        have h1 : List.find? (fun p => p.1 == k')
            (q :: r.map (fun p => if p.1 == k then (k, v) else p)) = some q :=
          List.find?_cons_of_pos _ hq'
        have h2 : List.find? (fun p => p.1 == k') (q :: r) = some q :=
          List.find?_cons_of_pos _ hq'
        rw [h1, h2]
      | false =>
        have h1 : List.find? (fun p => p.1 == k')
            (q :: r.map (fun p => if p.1 == k then (k, v) else p)) =
            List.find? (fun p => p.1 == k')
              (r.map (fun p => if p.1 == k then (k, v) else p)) :=
          List.find?_cons_of_neg _ (by rw [hq']; exact Bool.false_ne_true)
        have h2 : List.find? (fun p => p.1 == k') (q :: r) =
            List.find? (fun p => p.1 == k') r :=
          List.find?_cons_of_neg _ (by rw [hq']; exact Bool.false_ne_true)
        rw [h1, h2]
        exact find?_map_set_other v hne r

theorem recordGet_recordSet_same (r : List (String × Bool)) (k : String) (v : Bool) :
    recordGet (recordSet r k v) k = some v := by
  unfold recordSet recordGet
  cases hany : r.any (fun p => p.1 == k) with
  | false =>
    rw [if_neg Bool.false_ne_true]
    have hnone : r.find? (fun p => p.1 == k) = none := by
      rw [List.find?_eq_none]
      intro p hp
      have hall := List.any_eq_false.mp hany
      simpa using hall p hp
    rw [List.find?_append, hnone]
    simp
  | true =>
    rw [if_pos rfl]
    rw [find?_map_set k v r (by simpa using List.any_eq_true.mp hany)]
    rfl

theorem recordGet_recordSet_other (r : List (String × Bool)) {k k' : String} (v : Bool)
    (hne : k' ≠ k) : recordGet (recordSet r k v) k' = recordGet r k' := by
  unfold recordSet recordGet
  cases hany : r.any (fun p => p.1 == k) with
  | false =>
    rw [if_neg Bool.false_ne_true]
    rw [List.find?_append]
    cases e : r.find? (fun p => p.1 == k') with
    | some p => simp
    | none =>
      have hk : ((k, v).1 == k') = false := beq_eq_false_iff_ne.mpr (Ne.symm hne)
      simp [hk]
  | true =>
    rw [if_pos rfl]
    rw [find?_map_set_other v hne r]

theorem recordGet_foldl_not_mem :
    ∀ (kvs : List (String × Bool)) (r : List (String × Bool)) (k : String),
      (∀ p ∈ kvs, p.1 ≠ k) →
      recordGet (kvs.foldl (fun r p => recordSet r p.1 p.2) r) k = recordGet r k
  | [], _, _, _ => rfl
  | q :: kvs, r, k, h => by
    simp only [List.foldl_cons]
    rw [recordGet_foldl_not_mem kvs _ k (fun p hp => h p (List.mem_cons_of_mem q hp))]
    exact recordGet_recordSet_other r q.2 (fun hk => h q (List.mem_cons_self q kvs) hk.symm)

theorem recordGet_foldl_nodup :
    ∀ (kvs : List (String × Bool)) (r : List (String × Bool)) (k : String) (v : Bool),
      (k, v) ∈ kvs → (kvs.map Prod.fst).Nodup →
      recordGet (kvs.foldl (fun r p => recordSet r p.1 p.2) r) k = some v
  | [], _, _, _, hmem, _ => absurd hmem (by simp)
  | q :: kvs, r, k, v, hmem, hnodup => by
    simp only [List.foldl_cons]
    rw [List.map_cons] at hnodup
    have hnd := List.nodup_cons.mp hnodup
    rcases List.mem_cons.mp hmem with heq | hmem2
    · subst heq
      rw [recordGet_foldl_not_mem kvs _ k ?_]
      · exact recordGet_recordSet_same r k v
      · intro p hp hpk
        exact hnd.1 (by
          rw [← hpk]
          exact List.mem_map.mpr ⟨p, hp, rfl⟩)
    · exact recordGet_foldl_nodup kvs (recordSet r q.1 q.2) k v hmem2 hnd.2

/-! The input half of a truth-table row records exactly the row index bits. -/

theorem rowInputsFor_recordGet {inputs : List CircuitNode} {i j : Nat}
    (hj : j < inputs.length) (hnodup : (inputs.map (fun n => n.label)).Nodup) :
    recordGet (rowInputsFor inputs i) ((inputs.get ⟨j, hj⟩).label) =
      some (((jsShr i (inputs.length - 1 - j)) &&& 1) == 1) := by
  unfold rowInputsFor
  have hfold : inputs.enum.foldl
      (fun r p => recordSet r p.2.label (((jsShr i (inputs.length - 1 - p.1)) &&& 1) == 1)) [] =
    (inputs.enum.map
        (fun p => (p.2.label, (((jsShr i (inputs.length - 1 - p.1)) &&& 1) == 1)))).foldl
      (fun r p => recordSet r p.1 p.2) [] := by
    rw [List.foldl_map]
  rw [hfold]
  apply recordGet_foldl_nodup
  · have he : inputs.enum[j]? = some (j, inputs.get ⟨j, hj⟩) := by
      rw [List.getElem?_enum, List.getElem?_eq_getElem hj]
      rfl
    have hm : (j, inputs.get ⟨j, hj⟩) ∈ inputs.enum := List.getElem?_mem he
    exact List.mem_map.mpr ⟨(j, inputs.get ⟨j, hj⟩), hm, rfl⟩
  · have hkeys : ((inputs.enum.map
        (fun p => (p.2.label, (((jsShr i (inputs.length - 1 - p.1)) &&& 1) == 1)))).map
          Prod.fst) = inputs.map (fun n => n.label) := by
      rw [List.map_map]
      have hsnd : inputs.enum.map (Prod.fst ∘ fun p =>
          (p.2.label, (((jsShr i (inputs.length - 1 - p.1)) &&& 1) == 1))) =
        (inputs.enum.map Prod.snd).map (fun n => n.label) := by
        rw [List.map_map]
        rfl
      rw [hsnd, List.enum_map_snd]
    rw [hkeys]
    exact hnodup

/-! A pin with no resolvable driver keeps its absent marker. -/

theorem getD_two_none (k : Nat) : ([none, none] : List (Option Bool)).getD k none = none := by
  rcases k with _ | _ | k <;> rfl

theorem getNodeInputs_absent {x : String} {wires : List Wire} {M : List CircuitNode} {k : Nat}
    (h : ∀ w ∈ wires, w.targetNodeId = x → w.targetPinIndex = k →
      M.find? (fun n => n.id == w.sourceNodeId) = none) :
    (getNodeInputs x wires M).getD k none = none := by
  unfold getNodeInputs
  have haux : ∀ ws : List Wire,
      (∀ w ∈ ws, w.targetPinIndex = k → M.find? (fun n => n.id == w.sourceNodeId) = none) →
      ∀ acc : List (Option Bool), acc.getD k none = none →
      (ws.foldl (fun inputs w =>
        match M.find? (fun n => n.id == w.sourceNodeId) with
        | some sourceNode =>
          if w.targetPinIndex < 2 then inputs.set w.targetPinIndex (some sourceNode.value)
          else inputs
        | none => inputs) acc).getD k none = none := by
    intro ws
    induction ws with
    | nil => intro _ acc hacc; exact hacc
    | cons w ws ih =>
      intro hws acc hacc
      simp only [List.foldl_cons]
      apply ih (fun w2 hw2 => hws w2 (List.mem_cons_of_mem w hw2))
      cases e : M.find? (fun n => n.id == w.sourceNodeId) with
      | none => exact hacc
      | some s =>
        show (if w.targetPinIndex < 2 then acc.set w.targetPinIndex (some s.value)
          else acc).getD k none = none
        by_cases hpin : w.targetPinIndex < 2
        · rw [if_pos hpin]
          have hne : w.targetPinIndex ≠ k := by
            intro heq
            exact absurd e (by rw [hws w (List.mem_cons_self w ws) heq]; simp)
          rw [List.getD_eq_getElem?_getD, List.getElem?_set_ne hne, ← List.getD_eq_getElem?_getD]
          exact hacc
        · rw [if_neg hpin]
          exact hacc
  exact haux (targetWires wires x)
    (fun w hw => h w (mem_targetWires.mp hw).1 (mem_targetWires.mp hw).2)
    [none, none] (getD_two_none k)

/-! The boolean read the evaluator performs on an optional pin value. -/

theorem beq_some_true_eq_getD (o : Option Bool) : (o == some true) = o.getD false := by
  cases o with
  | none => rfl
  | some b => cases b <;> rfl

/-! The NOT chain: closed-form behavior of the evaluator on a 51-gate
acyclic chain, which needs 51 passes while the loop is capped at 50. -/

theorem chainId_inj {a b : Nat} (h : chainId a = chainId b) : a = b := by
  unfold chainId at h
  have hdata : List.replicate a 'a' = List.replicate b 'a' := by
    injection h
  have hlen := congrArg List.length hdata
  simpa using hlen

theorem chainId_beq (a b : Nat) : (chainId a == chainId b) = decide (a = b) := by
  by_cases h : a = b
  · subst h
    simp
  · have hne : chainId a ≠ chainId b := fun hc => h (chainId_inj hc)
    simp [hne, h]

theorem find?_range_eq {q : Nat → Bool} {m : Nat} (hq : ∀ k, q k = true ↔ k = m) :
    ∀ n : Nat, m < n → (List.range n).find? q = some m := by
  intro n
  induction n with
  | zero => omega
  | succ n ih =>
    intro hm
    rw [List.range_succ, List.find?_append]
    by_cases hmn : m < n
    · rw [ih hmn]
      rfl
    · have hmeq : m = n := by omega
      subst hmeq
      have hnone : (List.range m).find? q = none := by
        rw [List.find?_eq_none]
        intro k hk
        have hkm : k ≠ m := by
          have := List.mem_range.mp hk
          omega
        simp [hq, hkm]
      rw [hnone]
      have : q m = true := (hq m).mpr rfl
      simp [List.find?, this]

theorem filter_range_single {q : Nat → Bool} {m : Nat} (hq : ∀ k, q k = true ↔ k = m) :
    ∀ n : Nat, m < n → (List.range n).filter q = [m] := by
  intro n
  induction n with
  | zero => omega
  | succ n ih =>
    intro hm
    rw [List.range_succ, List.filter_append]
    by_cases hmn : m < n
    · rw [ih hmn]
      have hqn : q n = false := by
        cases hqn : q n with
        | false => rfl
        | true =>
          have := (hq n).mp hqn
          omega
      simp [List.filter, hqn]
    · have hmeq : m = n := by omega
      subst hmeq
      have hnone : (List.range m).filter q = [] := by
        rw [List.filter_eq_nil_iff]
        intro k hk
        have hkm : k ≠ m := by
          have := List.mem_range.mp hk
          omega
        simp [hq, hkm]
      have : q m = true := (hq m).mpr rfl
      rw [hnone]
      simp [List.filter, this]

theorem filter_range_nil {q : Nat → Bool} (hq : ∀ k, q k = false) (n : Nat) :
    (List.range n).filter q = [] := by
  rw [List.filter_eq_nil_iff]
  intro k _
  simp [hq]

theorem chainState_getElem? {k j : Nat} (hk : k < 51) :
    (chainState j)[k]? = some (mkNode (chainId k) GateType.NOT "" (chainVal k j)) := by
  unfold chainState
  rw [List.getElem?_map, List.getElem?_range hk]
  rfl

theorem chainState_find? {m j : Nat} (hm : m < 51) :
    (chainState j).find? (fun n => n.id == chainId m) =
      some (mkNode (chainId m) GateType.NOT "" (chainVal m j)) := by
  unfold chainState
  rw [List.find?_map]
  have hq : ∀ k, (((fun n => n.id == chainId m) ∘
      (fun k => mkNode (chainId k) GateType.NOT "" (chainVal k j))) k) = true ↔ k = m := by
    intro k
    show (chainId k == chainId m) = true ↔ k = m
    rw [chainId_beq]
    simp
  rw [find?_range_eq hq 51 hm]
  rfl

theorem chain_targetWires_zero : targetWires chainWires (chainId 0) = [] := by
  unfold targetWires chainWires
  rw [List.filter_map]
  have hq : ∀ k, (((fun w => w.targetNodeId == chainId 0) ∘
      (fun k => mkWire (chainId k) (chainId k) (chainId (k + 1)) 0)) k) = false := by
    intro k
    show (chainId (k + 1) == chainId 0) = false
    rw [chainId_beq]
    simp
  rw [filter_range_nil hq 50]
  rfl

theorem chain_targetWires_succ {m : Nat} (hm : m + 1 ≤ 50) :
    targetWires chainWires (chainId (m + 1)) =
      [mkWire (chainId m) (chainId m) (chainId (m + 1)) 0] := by
  unfold targetWires chainWires
  rw [List.filter_map]
  have hq : ∀ k, (((fun w => w.targetNodeId == chainId (m + 1)) ∘
      (fun k => mkWire (chainId k) (chainId k) (chainId (k + 1)) 0)) k) = true ↔ k = m := by
    intro k
    show (chainId (k + 1) == chainId (m + 1)) = true ↔ k = m
    rw [chainId_beq]
    constructor
    · intro h
      have := of_decide_eq_true h
      omega
    · intro h
      subst h
      simp
  rw [filter_range_single hq 50 (by omega)]
  rfl

theorem chainVal_step (k j : Nat) : (! chainVal k j) = chainVal (k + 1) (j + 1) := by
  unfold chainVal
  by_cases h0 : j = 0
  · subst h0
    simp
  · rw [if_neg h0, if_neg (by omega : ¬ j + 1 = 0)]
    by_cases hjk : j ≤ k
    · rw [if_pos hjk, if_pos (by omega : j + 1 ≤ k + 1)]
      rcases Nat.even_or_odd j with he | ho
      · have h1 : j % 2 = 0 := Nat.even_iff.mp he
        have h2 : (j + 1) % 2 = 1 := by omega
        simp [h1, h2]
      · have h1 : j % 2 = 1 := Nat.odd_iff.mp ho
        have h2 : (j + 1) % 2 = 0 := by omega
        simp [h1, h2]
    · rw [if_neg hjk, if_neg (by omega : ¬ j + 1 ≤ k + 1)]
      rcases Nat.even_or_odd k with he | ho
      · have h1 : k % 2 = 0 := Nat.even_iff.mp he
        have h2 : (k + 1) % 2 = 1 := by omega
        simp [h1, h2]
      · have h1 : k % 2 = 1 := Nat.odd_iff.mp ho
        have h2 : (k + 1) % 2 = 0 := by omega
        simp [h1, h2]

theorem chain_pass (j : Nat) : simulatePass (chainState j) chainWires = chainState (j + 1) := by
  show simulatePass ((List.range 51).map
    (fun k => mkNode (chainId k) GateType.NOT "" (chainVal k j))) chainWires = _
  unfold simulatePass chainState
  rw [List.map_map]
  apply List.map_congr_left
  intro k hk
  have hk51 : k < 51 := List.mem_range.mp hk
  show stepNode chainWires (chainState j) (mkNode (chainId k) GateType.NOT "" (chainVal k j)) =
    mkNode (chainId k) GateType.NOT "" (chainVal k (j + 1))
  unfold stepNode
  rw [if_neg (by simp [mkNode])]
  have hval : evaluateGate GateType.NOT
      (getNodeInputs (chainId k) chainWires (chainState j)) = chainVal k (j + 1) := by
    cases k with
    | zero =>
      unfold getNodeInputs
      rw [chain_targetWires_zero]
      show evaluateGate GateType.NOT [none, none] = chainVal 0 (j + 1)
      unfold evaluateGate chainVal
      simp
    | succ m =>
      unfold getNodeInputs
      rw [chain_targetWires_succ (by omega)]
      show evaluateGate GateType.NOT
        (match (chainState j).find? (fun n =>
          n.id == (mkWire (chainId m) (chainId m) (chainId (m + 1)) 0).sourceNodeId) with
         | some sourceNode => if (0 : Nat) < 2 then
             ([none, none] : List (Option Bool)).set 0 (some sourceNode.value)
           else [none, none]
         | none => [none, none]) = chainVal (m + 1) (j + 1)
      rw [show (mkWire (chainId m) (chainId m) (chainId (m + 1)) 0).sourceNodeId =
        chainId m from rfl]
      rw [chainState_find? (by omega)]
      show evaluateGate GateType.NOT [some (chainVal m j), none] = chainVal (m + 1) (j + 1)
      rw [← chainVal_step m j]
      unfold evaluateGate
      cases chainVal m j <;> rfl
  dsimp only [mkNode]
  rw [hval]

theorem chain_state_zero : chainState 0 = chainNodes := by
  unfold chainState chainNodes
  apply List.map_congr_left
  intro k _
  rfl

theorem chain_iter (j : Nat) : simulateIter chainWires j chainNodes = chainState j := by
  induction j with
  | zero => exact chain_state_zero.symm
  | succ j ih =>
    show simulatePass (simulateIter chainWires j chainNodes) chainWires = _
    rw [ih, chain_pass]

theorem chainState_ne_of_val {j j' k : Nat} (hk : k < 51)
    (hne : chainVal k j ≠ chainVal k j') : chainState j ≠ chainState j' := by
  intro heq
  have hget : (chainState j)[k]? = (chainState j')[k]? := by rw [heq]
  rw [chainState_getElem? hk, chainState_getElem? hk] at hget
  apply hne
  have hval := congrArg (fun o => (o.map (fun n => n.value)).getD false) hget
  simpa [mkNode] using hval

theorem chainVal_pre_settle {k j : Nat} (h0 : 1 ≤ j) (hjk : j ≤ k) :
    chainVal k j = decide (j % 2 = 1) := by
  unfold chainVal
  rw [if_neg (by omega), if_pos hjk]

theorem chainVal_settled {k j : Nat} (hjk : k < j) :
    chainVal k j = decide (k % 2 = 0) := by
  unfold chainVal
  rw [if_neg (by omega), if_neg (by omega)]

theorem chain_changes (j : Nat) (hj : j < 50) :
    simulatePass (simulateIter chainWires j chainNodes) chainWires ≠
      simulateIter chainWires j chainNodes := by
  rw [chain_iter, chain_pass]
  apply chainState_ne_of_val (show j + 1 < 51 by omega)
  cases Nat.eq_zero_or_pos j with
  | inl h0 =>
    subst h0
    simp [chainVal]
  | inr hpos =>
    rw [chainVal_pre_settle (by omega) (le_refl (j + 1)),
        chainVal_pre_settle hpos (by omega)]
    rcases Nat.even_or_odd j with he | ho
    · have h1 : j % 2 = 0 := Nat.even_iff.mp he
      have h2 : (j + 1) % 2 = 1 := by omega
      simp [h1, h2]
    · have h1 : j % 2 = 1 := Nat.odd_iff.mp ho
      have h2 : (j + 1) % 2 = 0 := by omega
      simp [h1, h2]

theorem chain_simulateCircuit : simulateCircuit chainNodes chainWires = chainState 50 := by
  show simulateAux chainWires 50 chainNodes = chainState 50
  rw [simulateAux_cap chainWires 50 chainNodes chain_changes, chain_iter]

theorem chainState_51_settled : chainState 52 = chainState 51 := by
  unfold chainState
  apply List.map_congr_left
  intro k hk
  have hk51 : k < 51 := List.mem_range.mp hk
  rw [chainVal_settled (by omega), chainVal_settled (by omega)]

theorem chain_second_call :
    simulateCircuit (chainState 50) chainWires = chainState 51 := by
  show simulateAux chainWires 50 (chainState 50) = chainState 51
  have h5051 : chainState 51 ≠ chainState 50 := by
    apply chainState_ne_of_val (show 50 < 51 by omega)
    rw [chainVal_settled (by omega), chainVal_pre_settle (by omega) (by omega)]
    simp
  rw [simulateAux_step (by rw [chain_pass]; exact h5051)]
  rw [chain_pass]
  apply simulateAux_stop
  rw [chain_pass]
  exact chainState_51_settled

theorem chain_not_idempotent :
    simulateCircuit (simulateCircuit chainNodes chainWires) chainWires ≠
      simulateCircuit chainNodes chainWires := by
  rw [chain_simulateCircuit, chain_second_call]
  apply chainState_ne_of_val (show 50 < 51 by omega)
  rw [chainVal_settled (by omega), chainVal_pre_settle (by omega) (by omega)]
  simp

theorem chainId_length (k : Nat) : (chainId k).length = k := by
  unfold chainId
  show (List.replicate k 'a').length = k
  exact List.length_replicate k 'a'

theorem chain_acyclic : Acyclic chainNodes chainWires := by
  refine ⟨fun s => s.length, ?_, ?_⟩
  · intro w hw _ _
    unfold chainWires at hw
    obtain ⟨k, _, rfl⟩ := List.mem_map.mp hw
    show (chainId k).length < (chainId (k + 1)).length
    rw [chainId_length, chainId_length]
    omega
  · intro n hn
    unfold chainNodes at hn
    obtain ⟨k, hk, rfl⟩ := List.mem_map.mp hn
    have hk51 : k < 51 := List.mem_range.mp hk
    show (chainId k).length < chainNodes.length
    rw [chainId_length]
    unfold chainNodes
    rw [List.length_map, List.length_range]
    omega

/-! Frame property of the per-row input driving. -/

theorem setInputValues_frame (nodes inputs : List CircuitNode) (i : Nat) :
    List.Forall₂ (fun a b => (a.type ≠ GateType.INPUT → b = a) ∧ sameShape a b)
      nodes (setInputValues nodes inputs i) := by
  unfold setInputValues
  rw [List.forall₂_map_right_iff]
  apply List.forall₂_same.mpr
  intro a _
  by_cases ht : a.type = GateType.INPUT
  · refine ⟨fun hna => absurd ht hna, ?_⟩
    rw [if_pos ht]
    cases inputs.findIdx? (fun inp => inp.id == a.id) with
    | some idx => exact ⟨rfl, rfl, rfl, rfl, rfl⟩
    | none => exact ⟨rfl, rfl, rfl, rfl, rfl⟩
  · rw [if_neg ht]
    exact ⟨fun _ => rfl, sameShape_refl a⟩

/-! A two-input gate driven only on pin 1. -/

theorem getNodeInputs_pin1 {x : String} {wires : List Wire} {M : List CircuitNode}
    {w : Wire} {s : CircuitNode}
    (hfil : wires.filter (fun w => w.targetNodeId == x) = [w])
    (hpin : w.targetPinIndex = 1)
    (hfind : M.find? (fun n => n.id == w.sourceNodeId) = some s) :
    getNodeInputs x wires M = [none, some s.value] := by
  unfold getNodeInputs
  have htw : targetWires wires x = [w] := by
    unfold targetWires
    rw [hfil]
    rfl
  rw [htw]
  simp only [List.foldl_cons, List.foldl_nil]
  rw [hfind]
  dsimp only
  rw [hpin]
  rfl

theorem buildExpr_pin1_gate {nodes : List CircuitNode} {wires : List Wire} {x : String}
    {visited : List String} {n : CircuitNode} {w : Wire}
    (hv : visited.contains x = false)
    (hfind : nodes.find? (fun nn => nn.id == x) = some n)
    (ht : ¬ n.type = GateType.INPUT)
    (hfil : wires.filter (fun w2 => w2.targetNodeId == x) = [w]) :
    buildExpr nodes wires x visited =
      (let a := orDefault (buildExpr nodes wires w.sourceNodeId (x :: visited)) "0"
       match n.type with
       | GateType.AND => "(" ++ a ++ " · " ++ "0" ++ ")"
       | GateType.OR => "(" ++ a ++ " + " ++ "0" ++ ")"
       | GateType.NOT => "¬" ++ a
       | GateType.NAND => "¬(" ++ a ++ " · " ++ "0" ++ ")"
       | GateType.NOR => "¬(" ++ a ++ " + " ++ "0" ++ ")"
       | GateType.XOR => "(" ++ a ++ " ⊕ " ++ "0" ++ ")"
       | GateType.OUTPUT => orDefault (buildExpr nodes wires w.sourceNodeId (x :: visited)) "?"
       | GateType.INPUT => "?") := by
  have htw : targetWires wires x = [w] := by
    unfold targetWires
    rw [hfil]
    rfl
  rw [buildExpr_gate hv hfind ht]
  dsimp only
  rw [htw]
  cases e : n.type <;> rfl

theorem bit_eq_testBit (i k : Nat) : (((i >>> k) &&& 1) == 1) = i.testBit k := by
  rw [Nat.and_one_is_mod, Nat.testBit_to_div_mod, Nat.shiftRight_eq_div_pow]
  by_cases h : i / 2 ^ k % 2 = 1
  · simp [h]
  · simp [h]

/-! Claim theorems. -/

/-- C3: one evaluation pass computes AND as a AND b, OR as a OR b, NAND, NOR,
XOR as (a AND NOT b) OR (NOT a AND b), NOT as NOT a, and OUTPUT as the
passthrough of a, where a and b are the two pin values with an absent pin read
as logical false; an INPUT node is returned unchanged by the pass; and a pin
with no wire targeting it, or whose wires' source ids match no node, stays
absent. -/
theorem claim_C3_gate_semantics :
    (∀ inputs : List (Option Bool),
      evaluateGate GateType.AND inputs =
          ((inputs.getD 0 none).getD false && (inputs.getD 1 none).getD false) ∧
        evaluateGate GateType.OR inputs =
          ((inputs.getD 0 none).getD false || (inputs.getD 1 none).getD false) ∧
        evaluateGate GateType.NAND inputs =
          !((inputs.getD 0 none).getD false && (inputs.getD 1 none).getD false) ∧
        evaluateGate GateType.NOR inputs =
          !((inputs.getD 0 none).getD false || (inputs.getD 1 none).getD false) ∧
        evaluateGate GateType.XOR inputs =
          (((inputs.getD 0 none).getD false && !(inputs.getD 1 none).getD false) ||
            (!(inputs.getD 0 none).getD false && (inputs.getD 1 none).getD false)) ∧
        evaluateGate GateType.NOT inputs = !(inputs.getD 0 none).getD false ∧
        evaluateGate GateType.OUTPUT inputs = (inputs.getD 0 none).getD false) ∧
    (∀ (wires : List Wire) (allNodes : List CircuitNode) (node : CircuitNode),
      node.type = GateType.INPUT → stepNode wires allNodes node = node) ∧
    (∀ (x : String) (wires : List Wire) (M : List CircuitNode) (k : Nat),
      (∀ w ∈ wires, w.targetNodeId = x → w.targetPinIndex = k →
        M.find? (fun n => n.id == w.sourceNodeId) = none) →
      (getNodeInputs x wires M).getD k none = none) := by
  refine ⟨fun inputs => ⟨?_, ?_, ?_, ?_, ?_, ?_, ?_⟩,
    fun wires allNodes node h => stepNode_input h wires allNodes,
    fun x wires M k h => getNodeInputs_absent h⟩ <;>
  · unfold evaluateGate
    rw [beq_some_true_eq_getD, beq_some_true_eq_getD]

/-- C3 witness: the XOR row of the table at a concrete input vector, the
INPUT passthrough at a concrete node, and an absent pin on a concrete
wireless circuit. -/
theorem claim_C3_witness :
    evaluateGate GateType.XOR [some true, none] =
        (((([some true, none] : List (Option Bool)).getD 0 none).getD false &&
            !(([some true, none] : List (Option Bool)).getD 1 none).getD false) ||
          (!(([some true, none] : List (Option Bool)).getD 0 none).getD false &&
            (([some true, none] : List (Option Bool)).getD 1 none).getD false)) ∧
      stepNode [] [] (mkNode "i" GateType.INPUT "A" true) = mkNode "i" GateType.INPUT "A" true ∧
      (getNodeInputs "g" [] []).getD 0 none = none :=
  ⟨(claim_C3_gate_semantics.1 [some true, none]).2.2.2.2.1,
    claim_C3_gate_semantics.2.1 [] [] (mkNode "i" GateType.INPUT "A" true) rfl,
    claim_C3_gate_semantics.2.2 "g" [] [] 0 (by simp)⟩

/-- C4: for every Circuit the evaluator performs at most 50 passes (so it is a
total function and never raises), returns the 50-pass snapshot when every one
of the first 50 passes still changed something, and stops at the first pass
that changes nothing, returning that settled snapshot. -/
theorem claim_C4_pass_cap (nodes : List CircuitNode) (wires : List Wire) :
    (∃ k, k ≤ 50 ∧ simulateCircuit nodes wires = simulateIter wires k nodes) ∧
    ((∀ j, j < 50 →
        simulatePass (simulateIter wires j nodes) wires ≠ simulateIter wires j nodes) →
      simulateCircuit nodes wires = simulateIter wires 50 nodes) ∧
    (∀ k, k < 50 →
      (∀ j, j < k →
        simulatePass (simulateIter wires j nodes) wires ≠ simulateIter wires j nodes) →
      simulatePass (simulateIter wires k nodes) wires = simulateIter wires k nodes →
      simulateCircuit nodes wires = simulateIter wires k nodes) :=
  ⟨simulateAux_eq_iter wires 50 nodes,
    fun h => simulateAux_cap wires 50 nodes h,
    fun k hk hosc hfix => simulateAux_early_stop wires k 50 nodes (by omega) hosc hfix⟩

/-- C4 witness: the self-looped NOT oscillator hits the 50-pass cap and the
small acyclic NOT circuit stops early after its second pass settles. -/
theorem claim_C4_witness :
    simulateCircuit oscNodes oscWires = simulateIter oscWires 50 oscNodes ∧
      simulateCircuit notNodes notWires = simulateIter notWires 2 notNodes :=
  ⟨(claim_C4_pass_cap oscNodes oscWires).2.1 (by decide),
    (claim_C4_pass_cap notNodes notWires).2.2 2 (by decide) (by decide) (by decide)⟩

/-- C5 counterexample: with 31 distinct INPUT nodes the source computes the
row count as the 32-bit shift `1 << 31`, which is negative, so the loop body
never runs and the table is empty instead of having 2 to the power 31 rows. -/
theorem claim_C5_counterexample :
    (big31Nodes.filter (fun n => decide (n.type = GateType.INPUT))).length = 31 ∧
      generateTruthTable big31Nodes [] = [] := by
  refine ⟨by decide, by decide⟩

/-- C5 (amended): the truth table is empty when the Circuit has no INPUT node
and has exactly 2 to the power n rows when it has n INPUT nodes with
1 at most n at most 30 (the row count is the 32-bit shift `1 << n`). -/
theorem claim_C5_row_count (nodes : List CircuitNode) (wires : List Wire) :
    ((nodes.filter (fun n => decide (n.type = GateType.INPUT))).length = 0 →
      generateTruthTable nodes wires = []) ∧
    (1 ≤ (nodes.filter (fun n => decide (n.type = GateType.INPUT))).length →
      (nodes.filter (fun n => decide (n.type = GateType.INPUT))).length ≤ 30 →
      (generateTruthTable nodes wires).length =
        2 ^ (nodes.filter (fun n => decide (n.type = GateType.INPUT))).length) := by
  constructor
  · intro h
    exact generateTruthTable_no_inputs (List.length_eq_zero.mp h)
  · intro h h30
    rw [generateTruthTable_length ?_, jsShlOne_small h30]
    intro hc
    rw [hc] at h
    simp at h

/-- C5 witness: the oscillator has no INPUT node and an empty table, while the
one-input NOT circuit gets two rows. -/
theorem claim_C5_witness :
    generateTruthTable oscNodes oscWires = [] ∧
      (generateTruthTable notNodes notWires).length =
        2 ^ (notNodes.filter (fun n => decide (n.type = GateType.INPUT))).length :=
  ⟨(claim_C5_row_count oscNodes oscWires).1 (by decide),
    (claim_C5_row_count notNodes notWires).2 (by decide) (by decide)⟩

/-- C8: the evaluator returns a node list of the same length and order in
which every node keeps its id, kind, label and coordinates, only the value
possibly differing; in this pure embedding the argument lists themselves are
immutable by construction. -/
theorem claim_C8_frame (nodes : List CircuitNode) (wires : List Wire) :
    List.Forall₂ sameShape nodes (simulateCircuit nodes wires) := by
  obtain ⟨k, _, heq⟩ := simulateAux_eq_iter wires 50 nodes
  show List.Forall₂ sameShape nodes (simulateAux wires 50 nodes)
  rw [heq]
  exact simulateIter_shape wires nodes k

/-- C1 counterexample: a 51-gate acyclic NOT chain needs 51 passes, so the
50-pass cap leaves the evaluator's result short of the fixed point and a
second call to the evaluator still changes a value. -/
theorem claim_C1_counterexample :
    Acyclic chainNodes chainWires ∧
      simulateCircuit (simulateCircuit chainNodes chainWires) chainWires ≠
        simulateCircuit chainNodes chainWires :=
  ⟨chain_acyclic, chain_not_idempotent⟩

/-- C1 (amended): for every Circuit whose wire graph is acyclic and that has
at most 50 nodes, the pass map reaches a fixed point within node-count many
passes, the evaluator's result is such a fixed point, and a second call to
the evaluator on its own output changes no node value. -/
theorem claim_C1_acyclic_fixed_point (nodes : List CircuitNode) (wires : List Wire)
    (hacyc : Acyclic nodes wires) (h50 : nodes.length ≤ 50) :
    simulatePass (simulateIter wires nodes.length nodes) wires =
        simulateIter wires nodes.length nodes ∧
      simulatePass (simulateCircuit nodes wires) wires = simulateCircuit nodes wires ∧
      simulateCircuit (simulateCircuit nodes wires) wires = simulateCircuit nodes wires :=
  ⟨acyclic_iter_fixed hacyc, acyclic_simulateCircuit_fixed hacyc h50,
    simulateCircuit_of_fixed (acyclic_simulateCircuit_fixed hacyc h50)⟩

/-- C1 witness: the INPUT-NOT-OUTPUT chain is acyclic with three nodes, so
the evaluator settles it and is idempotent on it. -/
theorem claim_C1_witness :
    simulatePass (simulateIter notWires notNodes.length notNodes) notWires =
        simulateIter notWires notNodes.length notNodes ∧
      simulatePass (simulateCircuit notNodes notWires) notWires =
        simulateCircuit notNodes notWires ∧
      simulateCircuit (simulateCircuit notNodes notWires) notWires =
        simulateCircuit notNodes notWires :=
  claim_C1_acyclic_fixed_point notNodes notWires
    ⟨fun s => if s = "a" then 0 else if s = "n" then 1 else 2, by decide, by decide⟩
    (by decide)

/-- C2 counterexample: the claim as stated fails twice over.  With two INPUT
nodes both labelled A the row object is keyed by label, so the second input's
bit overwrites the first's: in row 2 the first sorted input's recorded value
is false although bit 1 of the row index is set.  And with 31 INPUT nodes
carrying pairwise distinct labels, the 32-bit row count `1 << 31` is negative
and the table comes back empty instead of listing rows 0..2^31-1. -/
theorem claim_C2_counterexample :
    (sortByLabel (dupLabelNodes.filter (fun n => decide (n.type = GateType.INPUT)))).map
        (fun n => (n.id, n.label)) = [("i1", "A"), ("i2", "A")] ∧
      Nat.testBit 2
        ((sortByLabel (dupLabelNodes.filter
          (fun n => decide (n.type = GateType.INPUT)))).length - 1 - 0) = true ∧
      recordGet ((generateTruthTable dupLabelNodes []).getD 2 ⟨[], []⟩).inputs
          ((sortByLabel (dupLabelNodes.filter (fun n => decide (n.type = GateType.INPUT)))).getD 0
            (mkNode "" GateType.INPUT "" false)).label = some false ∧
      ((big31Nodes.map (fun n => n.label)).Nodup ∧
        (big31Nodes.filter (fun n => decide (n.type = GateType.INPUT))).length = 31 ∧
        generateTruthTable big31Nodes [] = []) := by
  refine ⟨by decide, by decide, by decide, by decide, by decide, by decide⟩

/-- C2 (amended): provided the INPUT labels are pairwise distinct and the
number n of INPUT nodes is at most 30 (the row count is the 32-bit shift
`1 << n`), the table has 2 to the power n rows in ascending index order, the
inputs are sorted by label ascending, and in row i the recorded value of the
j-th sorted input is bit (n-1-j) of i, so the alphabetically-first input is
the most-significant bit. -/
theorem claim_C2_truth_rows (nodes : List CircuitNode) (wires : List Wire)
    (hne : nodes.filter (fun n => decide (n.type = GateType.INPUT)) ≠ [])
    (hnodup : ((sortByLabel (nodes.filter (fun n => decide (n.type = GateType.INPUT)))).map
      (fun n => n.label)).Nodup)
    (h30 : (sortByLabel (nodes.filter
      (fun n => decide (n.type = GateType.INPUT)))).length ≤ 30) :
    (generateTruthTable nodes wires).length =
        2 ^ (sortByLabel (nodes.filter (fun n => decide (n.type = GateType.INPUT)))).length ∧
      List.Pairwise (fun a b => a.label ≤ b.label)
        (sortByLabel (nodes.filter (fun n => decide (n.type = GateType.INPUT)))) ∧
      ∀ i, i < 2 ^ (sortByLabel (nodes.filter
          (fun n => decide (n.type = GateType.INPUT)))).length →
        ∀ j (hj : j < (sortByLabel (nodes.filter
            (fun n => decide (n.type = GateType.INPUT)))).length),
          recordGet ((generateTruthTable nodes wires).getD i ⟨[], []⟩).inputs
              (((sortByLabel (nodes.filter (fun n => decide (n.type = GateType.INPUT)))).get
                ⟨j, hj⟩).label) =
            some (i.testBit ((sortByLabel (nodes.filter
              (fun n => decide (n.type = GateType.INPUT)))).length - 1 - j)) := by
  have hcount : (jsShlOne (sortByLabel (nodes.filter
      (fun n => decide (n.type = GateType.INPUT)))).length).toNat =
      2 ^ (sortByLabel (nodes.filter (fun n => decide (n.type = GateType.INPUT)))).length :=
    jsShlOne_small h30
  refine ⟨?_, ?_, ?_⟩
  · rw [generateTruthTable_length hne, ← sortByLabel_length
      (nodes.filter (fun n => decide (n.type = GateType.INPUT))), hcount]
  · unfold sortByLabel
    have hp := @pairwise_sortBy CircuitNode (fun a b => strLe a.label b.label)
      (fun a b => strLe_total a.label b.label)
      (fun a b c h1 h2 => strLe_trans a.label b.label c.label h1 h2)
      (nodes.filter (fun n => decide (n.type = GateType.INPUT)))
    exact hp.imp (fun h => strLe_eq_true_iff.mp h)
  · intro i hi j hj
    rw [generateTruthTable_of_inputs hne]
    rw [List.getD_eq_getElem?_getD, List.getElem?_map,
      List.getElem?_range (by rw [hcount]; exact hi)]
    show recordGet (rowInputsFor
      (sortByLabel (nodes.filter (fun n => decide (n.type = GateType.INPUT)))) i) _ = _
    rw [@rowInputsFor_recordGet
      (sortByLabel (nodes.filter (fun n => decide (n.type = GateType.INPUT)))) i j hj hnodup]
    rw [jsShr_small (by omega) i, bit_eq_testBit]

/-- C2 witness: with inputs labelled A and B, row 2 records A (the
most-significant bit) as bit 1 of the index, which is set. -/
theorem claim_C2_witness :
    recordGet ((generateTruthTable twoInNodes []).getD 2 ⟨[], []⟩).inputs
        (((sortByLabel (twoInNodes.filter (fun n => decide (n.type = GateType.INPUT)))).get
          ⟨0, by decide⟩).label) =
      some (Nat.testBit 2 ((sortByLabel (twoInNodes.filter
        (fun n => decide (n.type = GateType.INPUT)))).length - 1 - 0)) :=
  (claim_C2_truth_rows twoInNodes [] (by decide) (by decide) (by decide)).2.2
    2 (by decide) 0 (by decide)

/-- C6: the expression builder is fuel-independent above one more than the
number of distinct node ids, which is exactly termination of the source's
recursion; a node id already on the current path renders as the loop marker;
a true back-edge yields the marker in the built expression while a
reconvergent diamond expands normally with no marker. -/
theorem claim_C6_termination :
    (∀ (nodes : List CircuitNode) (wires : List Wire) (nodeId : String)
        (visited : List String) (fuel : Nat), exprFuel nodes ≤ fuel →
      buildExprFuel nodes wires fuel nodeId visited = buildExpr nodes wires nodeId visited) ∧
      (∀ (nodes : List CircuitNode) (wires : List Wire) (nodeId : String)
          (visited : List String),
        visited.contains nodeId = true → buildExpr nodes wires nodeId visited = "[LOOP]") ∧
      generateExpression selfAndNodes selfAndWires = "Y = (A · [LOOP])" ∧
      generateExpression diamondNodes diamondWires = "Y = (¬A · ¬A)" := by
  refine ⟨?_, ?_, by decide, by decide⟩
  · intro nodes wires nodeId visited fuel hf
    exact buildExprFuel_stable (lt_of_lt_of_le (newIdCount_lt_exprFuel nodes visited) hf)
  · intro nodes wires nodeId visited h
    exact buildExpr_visited h

/-- C6 witness: any large enough fuel expands the diamond the same way, and a
path-visited id short-circuits to the loop marker. -/
theorem claim_C6_witness :
    buildExprFuel diamondNodes diamondWires 100 "g" [] =
        buildExpr diamondNodes diamondWires "g" [] ∧
      buildExpr selfAndNodes selfAndWires "g" ["g"] = "[LOOP]" :=
  ⟨claim_C6_termination.1 diamondNodes diamondWires "g" [] 100 (by decide),
    claim_C6_termination.2.1 selfAndNodes selfAndWires "g" ["g"] (by decide)⟩

/-- C7: with no OUTPUT node the synthesizer returns the fixed sentinel; with
OUTPUT nodes it joins label-equals-expansion strings with a semicolon
separator in original filter order; and a found non-INPUT node renders with
its kind-specific shape over its pin-sorted source expansions, a missing
second operand reading as the literal 0. -/
theorem claim_C7_rendering :
    (∀ (nodes : List CircuitNode) (wires : List Wire),
      nodes.filter (fun n => decide (n.type = GateType.OUTPUT)) = [] →
      generateExpression nodes wires = "No Output") ∧
      (∀ (nodes : List CircuitNode) (wires : List Wire),
        nodes.filter (fun n => decide (n.type = GateType.OUTPUT)) ≠ [] →
        generateExpression nodes wires = String.intercalate "; "
          ((nodes.filter (fun n => decide (n.type = GateType.OUTPUT))).map
            (fun out => out.label ++ " = " ++ buildExpr nodes wires out.id []))) ∧
      (∀ (nodes : List CircuitNode) (wires : List Wire) (nodeId : String)
          (visited : List String) (n : CircuitNode),
        visited.contains nodeId = false →
        nodes.find? (fun nn => nn.id == nodeId) = some n →
        ¬ n.type = GateType.INPUT →
        buildExpr nodes wires nodeId visited =
          (let sources := (targetWires wires nodeId).map
              (fun w => buildExpr nodes wires w.sourceNodeId (nodeId :: visited))
           if sources.length = 0 then orDefault n.label "?"
           else
             let a := orDefault (sources.getD 0 "") "0"
             let b := orDefault (sources.getD 1 "") "0"
             match n.type with
             | GateType.AND => "(" ++ a ++ " · " ++ b ++ ")"
             | GateType.OR => "(" ++ a ++ " + " ++ b ++ ")"
             | GateType.NOT => "¬" ++ a
             | GateType.NAND => "¬(" ++ a ++ " · " ++ b ++ ")"
             | GateType.NOR => "¬(" ++ a ++ " + " ++ b ++ ")"
             | GateType.XOR => "(" ++ a ++ " ⊕ " ++ b ++ ")"
             | GateType.OUTPUT => orDefault (sources.getD 0 "") "?"
             | GateType.INPUT => "?")) :=
  ⟨fun _ _ h => generateExpression_no_output h,
    fun _ _ h => generateExpression_of_outputs h,
    fun _ _ _ _ _ hv hf ht => buildExpr_gate hv hf ht⟩

/-- C7 witness: the sentinel on an output-less circuit, the joined form on the
NOT circuit, and the AND shape on the diamond's gate. -/
theorem claim_C7_witness :
    generateExpression oscNodes oscWires = "No Output" ∧
      generateExpression notNodes notWires = String.intercalate "; "
        ((notNodes.filter (fun n => decide (n.type = GateType.OUTPUT))).map
          (fun out => out.label ++ " = " ++ buildExpr notNodes notWires out.id [])) ∧
      buildExpr diamondNodes diamondWires "g" [] = "(¬A · ¬A)" :=
  ⟨claim_C7_rendering.1 oscNodes oscWires (by decide),
    claim_C7_rendering.2.1 notNodes notWires (by decide),
    by
      have h := claim_C7_rendering.2.2 diamondNodes diamondWires "g" []
        (mkNode "g" GateType.AND "AND" false) (by decide) (by decide) (by decide)
      rw [h]
      decide⟩

/-- C9: a two-input gate driven by a single wire into pin 1 is rendered by the
synthesizer with the pin-1 source's expansion as FIRST operand and the literal
0 as second, for every gate kind (operands are taken by position in the
pin-sorted wire list), whereas the evaluator resolves the same wire onto
operand b with operand a absent; on the concrete circuit the AND renders as
(A · 0) while it evaluates to false even with A high. -/
theorem claim_C9_operand_position :
    (∀ (x : String) (wires : List Wire) (M : List CircuitNode) (w : Wire) (s : CircuitNode),
      wires.filter (fun w2 => w2.targetNodeId == x) = [w] →
      w.targetPinIndex = 1 →
      M.find? (fun n => n.id == w.sourceNodeId) = some s →
      getNodeInputs x wires M = [none, some s.value]) ∧
      (∀ (nodes : List CircuitNode) (wires : List Wire) (x : String)
          (visited : List String) (n : CircuitNode) (w : Wire),
        visited.contains x = false →
        nodes.find? (fun nn => nn.id == x) = some n →
        ¬ n.type = GateType.INPUT →
        wires.filter (fun w2 => w2.targetNodeId == x) = [w] →
        w.targetPinIndex = 1 →
        buildExpr nodes wires x visited =
          (let a := orDefault (buildExpr nodes wires w.sourceNodeId (x :: visited)) "0"
           match n.type with
           | GateType.AND => "(" ++ a ++ " · " ++ "0" ++ ")"
           | GateType.OR => "(" ++ a ++ " + " ++ "0" ++ ")"
           | GateType.NOT => "¬" ++ a
           | GateType.NAND => "¬(" ++ a ++ " · " ++ "0" ++ ")"
           | GateType.NOR => "¬(" ++ a ++ " + " ++ "0" ++ ")"
           | GateType.XOR => "(" ++ a ++ " ⊕ " ++ "0" ++ ")"
           | GateType.OUTPUT =>
             orDefault (buildExpr nodes wires w.sourceNodeId (x :: visited)) "?"
           | GateType.INPUT => "?")) ∧
      generateExpression pinOneNodes pinOneWires = "Y = (A · 0)" ∧
      lookupVal (simulateCircuit pinOneNodes pinOneWires) "g" = some false := by
  refine ⟨?_, ?_, by decide, by decide⟩
  · intro x wires M w s hfil hpin hfind
    exact getNodeInputs_pin1 hfil hpin hfind
  · intro nodes wires x visited n w hv hfind ht hfil _
    exact buildExpr_pin1_gate hv hfind ht hfil

/-- C9 witness: on the concrete pin-1 AND circuit the evaluator reads the
wire's value into slot b with slot a absent, and the synthesizer renders the
pin-1 source first with the literal 0 second; the XOR variant of the same
circuit also renders its pin-1 source first. -/
theorem claim_C9_witness :
    getNodeInputs "g" pinOneWires pinOneNodes = [none, some true] ∧
      buildExpr pinOneNodes pinOneWires "g" [] =
        "(" ++ orDefault (buildExpr pinOneNodes pinOneWires "a" ["g"]) "0" ++
          " · " ++ "0" ++ ")" ∧
      buildExpr [mkNode "a" GateType.INPUT "A" true, mkNode "g" GateType.XOR "XOR" false]
          pinOneWires "g" [] =
        "(" ++ orDefault (buildExpr
            [mkNode "a" GateType.INPUT "A" true, mkNode "g" GateType.XOR "XOR" false]
            pinOneWires "a" ["g"]) "0" ++ " ⊕ " ++ "0" ++ ")" :=
  ⟨claim_C9_operand_position.1 "g" pinOneWires pinOneNodes (mkWire "w1" "a" "g" 1)
      (mkNode "a" GateType.INPUT "A" true) (by decide) (by decide) (by decide),
    claim_C9_operand_position.2.1 pinOneNodes pinOneWires "g" []
      (mkNode "g" GateType.AND "AND" false) (mkWire "w1" "a" "g" 1)
      (by decide) (by decide) (by decide) (by decide) (by decide),
    claim_C9_operand_position.2.1
      [mkNode "a" GateType.INPUT "A" true, mkNode "g" GateType.XOR "XOR" false]
      pinOneWires "g" [] (mkNode "g" GateType.XOR "XOR" false) (mkWire "w1" "a" "g" 1)
      (by decide) (by decide) (by decide) (by decide) (by decide)⟩

/-- C10: the per-row working copy only rewrites INPUT node values, keeping
every non-INPUT node exactly as in the caller's snapshot (shape always
preserved); the two latch snapshots differ only in the OR gate's stored value
yet produce different truth tables, so a row's recorded outputs depend on the
snapshot passed in. -/
theorem claim_C10_snapshot_reuse :
    (∀ (nodes inputs : List CircuitNode) (i : Nat),
      List.Forall₂ (fun a b => (a.type ≠ GateType.INPUT → b = a) ∧ sameShape a b)
        nodes (setInputValues nodes inputs i)) ∧
      ((latchNodes false).map (fun n => (n.id, n.type, n.x, n.y, n.label)) =
        (latchNodes true).map (fun n => (n.id, n.type, n.x, n.y, n.label))) ∧
      generateTruthTable (latchNodes false) latchWires ≠
        generateTruthTable (latchNodes true) latchWires := by
  refine ⟨setInputValues_frame, by decide, by decide⟩

/-- C10 witness: the frame property instantiated on the latch snapshot. -/
theorem claim_C10_witness :
    List.Forall₂ (fun a b => (a.type ≠ GateType.INPUT → b = a) ∧ sameShape a b)
      (latchNodes true) (setInputValues (latchNodes true)
        [mkNode "a" GateType.INPUT "A" false] 1) :=
  claim_C10_snapshot_reuse.1 (latchNodes true) [mkNode "a" GateType.INPUT "A" false] 1
